import Mathlib

/-!
# DART memory pools, unit locality lookup and the SUMMA block product

Shallow embeddings of

* `dart-impl/mpi/src/dart_pmem.c`: `_tempname`, `dart__pmem__open`, `dart_pmem_bucket_alloc`,
  `dart__pmem__alloc` and `dart__pmem__close`;
* `dart-impl/shmem/dart-shmem/dart_mempool_priv.h`: the list node and the pool of the
  shared-memory free-list allocator, with the list primitives and `alloc` / `free` modelled from
  the specification (their bodies are not among the sources);
* `dash/include/dash/algorithm/SUMMA.h`: `dash::internal::multiply_naive` and the extent
  assertions of `dash::summa`;
* `dart-impl/base/src/internal/unit_locality.c`: `dart__base__unit_locality__init` and
  `dart__base__unit_locality__at`.

Conventions for the persistent pool:

* C strings are lists of characters (without the terminating NUL), `strlen` is `List.length`.
* The process state is a `World`: the pool files on disk, the set of pools the process has
  mapped, and the trace of calls made to the file system, the object store and the team
  collaborators (newest call first).
* The transactional object store (libpmemobj) and the team layer are not part of the
  repository.  Their observable behaviour is modelled by the small functions of the section
  "object store"; every decision that belongs to them (is there room, does the file system
  allow the creation, what does the rank query answer, what does the registration answer) is a
  field of `Env`, so that every theorem holds for all behaviours of the collaborators.
* Constants and sizes that are declared in headers outside the sources at hand
  (`DART_PMEM_FILE_CREATE`, `DART_TEAM_NULL`, `DART_NVM_POOL_NAME`, `DART_PMEM_MIN_POOL`,
  `sizeof(struct dart_pmem_bucket_list)`, `sizeof(struct dart_pmem_bucket)`, whether
  `DART_ASSERT` is compiled in) are fields of `Env` as well.
* `int flags` is represented by its 32-bit two's-complement pattern, a natural number.
-/

namespace Dash

/-! ## Data model -/

/-- A NUL-terminated C string, without its terminator. -/
abbrev CString := List Char

/-- Return codes of the DART interface (`dart_ret_t`, declared in `dart_types.h`). -/
inductive dart_ret_t
  | DART_OK
  | DART_PENDING
  | DART_ERR_INVAL
  | DART_ERR_NOTFOUND
  | DART_ERR_NOTINIT
  | DART_ERR_OTHER
  deriving DecidableEq, Repr

/-- Team identifier (`dart_team_t`, a signed integer). -/
abbrev dart_team_t := Int

/-- Global pointer (`dart_gptr_t`); produced by the registration collaborator only. -/
structure dart_gptr_t where
  unitid : Int
  segid : Int
  offset : Nat
  deriving DecidableEq, Repr

/-- Handle of a mapped pool (`PMEMobjpool *`, non-null): identifies the mapped file. -/
abbrev PMEMobjpool := CString

/-- Object identifier inside a pool; `none` is `OID_NULL`. -/
abbrev PMEMoid := Option Nat

/-- A direct pointer into a mapped pool (`char *`, non-null), as given by `pmemobj_direct`. -/
structure LocalPtr where
  pool : PMEMobjpool
  off : Nat
  deriving DecidableEq, Repr

/-- One bucket (`struct dart_pmem_bucket`); its `next` link is the tail of the list it is in. -/
structure dart_pmem_bucket where
  element_size : Nat
  length : Nat
  data : PMEMoid
  deriving DecidableEq, Repr

/-- Root object (`struct dart_pmem_bucket_list`): the name tag and the singly linked list
of buckets hanging off `head` (the empty list is the null sentinel). -/
structure dart_pmem_bucket_list where
  name : CString
  head : List dart_pmem_bucket
  deriving DecidableEq, Repr

/-- Arguments of the bucket allocation (`struct dart_pmem_bucket_alloc_args`). -/
structure dart_pmem_bucket_alloc_args where
  element_size : Nat
  nelements : Nat
  deriving DecidableEq, Repr

/-- Arguments of the root constructor (`struct dart_pmem_slist_constr_args`). -/
structure dart_pmem_slist_constr_args where
  name : CString
  deriving DecidableEq, Repr

/-- Pool descriptor handed to the caller (`dart_pmem_pool_t`); `pop = none` is a null handle. -/
structure dart_pmem_pool_t where
  size : Nat
  path : CString
  layout : CString
  pop : Option PMEMobjpool
  teamid : dart_team_t
  deriving DecidableEq, Repr

/-- Persistent content of one pool file: layout name given at creation, size of the root
object (`0` when there is none), the root object, the byte objects allocated in the pool
(offset and content) and the first unused offset. -/
structure PoolFile where
  layout : CString
  root_size : Nat
  root : dart_pmem_bucket_list
  objects : List (Nat × List Nat)
  brk : Nat
  deriving DecidableEq, Repr

/-- Calls that leave the component, in the order of the source. -/
inductive Event
  | ev_team_myid (team : dart_team_t)
  | ev_access (path : CString)
  | ev_pmemobj_create (path layout : CString) (poolsize mode : Nat)
  | ev_pmemobj_root_construct (pop : PMEMobjpool) (size : Nat)
  | ev_pmemobj_open (path layout : CString)
  | ev_pmemobj_close (pop : PMEMobjpool)
  | ev_team_memregister (team : dart_team_t) (nbytes : Nat) (mem : LocalPtr)
  deriving DecidableEq, Repr

/-- Process and disk state. `trace` lists the outgoing calls, newest first. -/
structure World where
  files : CString → Option PoolFile
  opened : CString → Bool
  trace : List Event

/-- A call either returns a value or the process is terminated (`abort()`, a failed assertion,
a fault). -/
inductive Outcome (α : Type)
  | returned (a : α)
  | aborted
  deriving DecidableEq, Repr

/-- The memory of the root object as `pmemobj_root_construct` hands it to the constructor
through `ptr`: its content read as a `struct dart_pmem_bucket_list`, and the object identifier
that its first bytes spell when they are read as a `TOID`, which is what `*list` is in
`_dart_pmem_list_new` (`none` is `OID_NULL`, spelled by zero bytes). -/
structure root_memory where
  content : dart_pmem_bucket_list
  first_bytes_as_toid : PMEMoid
  deriving DecidableEq, Repr

/-- Everything the source takes from outside: header constants, structure sizes, the
assertion switch, and the answers of the collaborators. -/
structure Env where
  DART_PMEM_FILE_CREATE : Nat
  DART_TEAM_NULL : dart_team_t
  DART_NVM_POOL_NAME : Nat
  DART_PMEM_MIN_POOL : Nat
  sizeof_bucket_list : Nat
  sizeof_bucket : Nat
  /-- Whether `DART_ASSERT` and `DART_ASSERT_RETURNS` are compiled in. -/
  assertions : Bool
  /-- Answer of `dart_team_myid`: return code and the value written to `myid`. -/
  dart_team_myid : dart_team_t → dart_ret_t × Int
  /-- Answer of `dart_team_memregister`: return code and the value of `*gptr` afterwards. -/
  dart_team_memregister : dart_team_t → Nat → LocalPtr → dart_gptr_t → dart_ret_t × dart_gptr_t
  /-- Whether the store can allocate the given number of bytes in the pool. -/
  room : PoolFile → Nat → Bool
  /-- Whether the file system lets a pool file of that size and mode be created. -/
  can_create : CString → Nat → Nat → Bool
  /-- The object identifier spelled by the first bytes of a root object that exists already;
  it depends on the layout of `struct dart_pmem_bucket_list` (declared in `dart_pmem.h`). -/
  root_first_bytes : dart_pmem_bucket_list → PMEMoid
  /-- What the transaction of the root constructor does when `*list` is not null: the head
  initialisation and `TX_MEMCPY` go through `D_RW(*list)`, to the object which that identifier
  (given by its offset) names. The return code and the content left in the root, or the end
  of the process, depend on where the identifier points. -/
  constructor_through_toid :
    Nat → dart_pmem_slist_constr_args → dart_pmem_bucket_list →
      Outcome (Int × dart_pmem_bucket_list)

/-! ## C library -/

/-- Characters printed for `%d`. -/
def fmt_d (v : Int) : CString :=
  if v < 0 then '-' :: Nat.toDigits 10 v.natAbs else Nat.toDigits 10 v.toNat

/-- The call `snprintf(buf, size, ".%d", v)`: at most `size - 1` characters are stored. -/
def snprintf_dot_d (size : Nat) (v : Int) : CString :=
  ('.' :: fmt_d v).take (size - 1)

/-- The bitwise complement `~x` on 32-bit patterns. -/
def lnot32 (x : Nat) : Nat := x ^^^ 0xFFFFFFFF

/-- Multiplication in `size_t` (64 bit). -/
def size_t_mul (a b : Nat) : Nat := (a * b) % 2 ^ 64

/-- Whether execution continues past `DART_ASSERT(c)`. -/
def DART_ASSERT (E : Env) (c : Bool) : Bool := !E.assertions || c

/-! ## Object store -/

/-- Record an outgoing call. -/
def World.log (w : World) (e : Event) : World := { w with trace := e :: w.trace }

/-- The call `access(path, F_OK) != 0`: true when there is no such file. -/
def access_fails (w : World) (path : CString) : Bool × World :=
  ((w.files path).isNone, w.log (Event.ev_access path))

/-- The call `pmemobj_create`: fails when the file exists or cannot be created; otherwise
a fresh pool file without root object, mapped into the process. -/
def pmemobj_create (E : Env) (w : World) (path layout : CString) (poolsize mode : Nat) :
    Option PMEMobjpool × World :=
  let w1 := w.log (Event.ev_pmemobj_create path layout poolsize mode)
  if (w.files path).isSome || !E.can_create path poolsize mode then (none, w1)
  else
    (some path,
      { w1 with
        files := Function.update w1.files path
          (some { layout := layout, root_size := 0, root := { name := [], head := [] },
                  objects := [], brk := 0 })
        opened := Function.update w1.opened path true })

/-- The call `pmemobj_open`: succeeds on an existing file of that layout which the process has
not mapped already. -/
def pmemobj_open (w : World) (path layout : CString) : Option PMEMobjpool × World :=
  let w1 := w.log (Event.ev_pmemobj_open path layout)
  match w.files path with
  | none => (none, w1)
  | some f =>
    if f.layout = layout ∧ w.opened path = false then
      (some path, { w1 with opened := Function.update w1.opened path true })
    else (none, w1)

/-- The call `pmemobj_close`: unmaps the pool; the file stays as it is. -/
def pmemobj_close (w : World) (pop : Option PMEMobjpool) : World :=
  match pop with
  | none => w
  | some p =>
    { (w.log (Event.ev_pmemobj_close p)) with opened := Function.update w.opened p false }

/-- The call `pmemobj_root_size`. -/
def pmemobj_root_size (w : World) (pop : PMEMobjpool) : Nat :=
  match w.files pop with
  | none => 0
  | some f => f.root_size

/-- The memory that `pmemobj_root_construct` hands to the constructor for the pool content
`f`: a new root object is zero-filled, so that its first bytes spell `OID_NULL`; a root that
is grown keeps its content. -/
def root_memory_of (E : Env) (f : PoolFile) : root_memory :=
  if f.root_size = 0 then
    { content := { name := [], head := [] }, first_bytes_as_toid := none }
  else { content := f.root, first_bytes_as_toid := E.root_first_bytes f.root }

/-- The call `pmemobj_root_construct(pop, size, constructor, arg)`: an existing root that is
large enough is returned as it is; otherwise a root of `size` bytes is allocated and the
constructor runs on its memory, and a constructor that returns non-zero cancels the
allocation. The result is the root's identifier (`none` is `OID_NULL`). -/
def pmemobj_root_construct (E : Env) (w : World) (pop : PMEMobjpool) (size : Nat)
    (constructor : root_memory → Outcome (Int × dart_pmem_bucket_list)) :
    Outcome (Option PMEMobjpool) × World :=
  let w1 := w.log (Event.ev_pmemobj_root_construct pop size)
  match w.files pop with
  | none => (Outcome.returned none, w1)
  | some f =>
    if f.root_size ≠ 0 ∧ size ≤ f.root_size then (Outcome.returned (some pop), w1)
    else if size = 0 ∨ E.room f size = false then (Outcome.returned none, w1)
    else
      match constructor (root_memory_of E f) with
      | Outcome.aborted => (Outcome.aborted, w1)
      | Outcome.returned (r, root1) =>
        if r ≠ 0 then (Outcome.returned none, w1)
        else
          (Outcome.returned (some pop),
            { w1 with
              files := Function.update w1.files pop
                (some { f with root_size := size, root := root1, brk := f.brk + size }) })

/-- The macro `POBJ_ROOT(pop, struct dart_pmem_bucket_list)`, for a root that already has the
size asked for (the only case in which the source reaches it); `none` is a null `TOID`. -/
def POBJ_ROOT (E : Env) (w : World) (pop : PMEMobjpool) : Option PMEMobjpool :=
  match w.files pop with
  | none => none
  | some f => if E.sizeof_bucket_list ≤ f.root_size then some pop else none

/-- The macro `TX_NEW` / the call `pmemobj_tx_alloc` inside a transaction: `none` when the
allocation fails, which aborts the transaction. -/
def pmemobj_tx_alloc (E : Env) (f : PoolFile) (size : Nat) : Option (Nat × PoolFile) :=
  if size = 0 ∨ E.room f size = false then none
  else some (f.brk, { f with brk := f.brk + size })

/-- The call `pmemobj_tx_zalloc` inside a transaction: like `pmemobj_tx_alloc`, and the new
object is filled with zero bytes. -/
def pmemobj_tx_zalloc (E : Env) (f : PoolFile) (size : Nat) : Option (Nat × PoolFile) :=
  if size = 0 ∨ E.room f size = false then none
  else
    some (f.brk,
      { f with brk := f.brk + size, objects := (f.brk, List.replicate size 0) :: f.objects })

/-- The call `pmemobj_direct`. -/
def pmemobj_direct (pop : PMEMobjpool) (oid : PMEMoid) : Option LocalPtr :=
  oid.map (fun off => { pool := pop, off := off })

/-- Content of the object at a direct pointer. -/
def World.bytes_at (w : World) (p : LocalPtr) : Option (List Nat) :=
  match w.files p.pool with
  | none => none
  | some f => f.objects.lookup p.off

/-! ## `dart_pmem.c` -/

/-- Root constructor `_dart_pmem_list_new(pop, ptr, arg)`. The source takes `ptr`, the memory
of the root object, as a pointer to a `TOID`: `*list` is the object identifier spelled by the
first bytes of that memory. Inside the transaction a null `*list` calls `abort()`, which ends
the process; otherwise the head initialisation and the copy of the name are made through
`D_RW(*list)`, on the object which that identifier names. -/
def _dart_pmem_list_new (E : Env) (args : dart_pmem_slist_constr_args) (ptr : root_memory) :
    Outcome (Int × dart_pmem_bucket_list) :=
  match ptr.first_bytes_as_toid with
  | none => Outcome.aborted
  | some off => E.constructor_through_toid off args ptr.content

/-- The function `_tempname(layout, myid)`: `layout` followed by what `snprintf` stored in
the three-byte buffer `suffix`. -/
def _tempname (layout : CString) (myid : Int) : CString :=
  let suffix := snprintf_dot_d 3 myid
  layout ++ suffix

/-- The macro `DART_PMEM_ALL_FLAGS`. -/
def DART_PMEM_ALL_FLAGS (E : Env) : Nat := E.DART_PMEM_FILE_CREATE

/-- Result of `dart__pmem__open`: how the call ended, the caller's descriptor `*poolp`
afterwards, and the state afterwards. -/
structure OpenResult where
  ret : Outcome dart_ret_t
  poolp : dart_pmem_pool_t
  world : World

/-- The branch of `dart__pmem__open` taken when the create flag is set and `access` finds no
file: `pmemobj_create`, then `pmemobj_root_construct` with `_dart_pmem_list_new`, then
`DART_ASSERT(!OID_IS_NULL(root))`, then the descriptor is filled. -/
def dart__pmem__open_create (E : Env) (w : World) (team : dart_team_t) (name : CString)
    (mode : Nat) (poolp : dart_pmem_pool_t) (full_path : CString) : OpenResult :=
  let c := pmemobj_create E w full_path name E.DART_PMEM_MIN_POOL mode
  match c.1 with
  | none => ⟨Outcome.returned dart_ret_t.DART_ERR_INVAL, poolp, c.2⟩
  | some pop =>
    let r := pmemobj_root_construct E c.2 pop E.sizeof_bucket_list
      (_dart_pmem_list_new E { name := name })
    match r.1 with
    | Outcome.aborted => ⟨Outcome.aborted, poolp, r.2⟩
    | Outcome.returned root =>
      if DART_ASSERT E root.isSome then
        ⟨Outcome.returned dart_ret_t.DART_OK,
          { size := 0, path := full_path, layout := name, pop := some pop, teamid := team },
          r.2⟩
      else ⟨Outcome.aborted, poolp, r.2⟩

/-- The `else` branch of `dart__pmem__open`: `pmemobj_open`, then
`DART_ASSERT(pmemobj_root_size(pop))`, then the descriptor is filled. -/
def dart__pmem__open_existing (E : Env) (w : World) (team : dart_team_t) (name : CString)
    (poolp : dart_pmem_pool_t) (full_path : CString) : OpenResult :=
  let o := pmemobj_open w full_path name
  match o.1 with
  | none => ⟨Outcome.returned dart_ret_t.DART_ERR_INVAL, poolp, o.2⟩
  | some pop =>
    if DART_ASSERT E (decide (pmemobj_root_size o.2 pop ≠ 0)) then
      ⟨Outcome.returned dart_ret_t.DART_OK,
        { size := 0, path := full_path, layout := name, pop := some pop, teamid := team },
        o.2⟩
    else ⟨Outcome.aborted, poolp, o.2⟩

/-- The part of `dart__pmem__open` after `full_path` has been derived: the test
`(flags & DART_PMEM_FILE_CREATE) && access(full_path, F_OK) != 0` (`access` is called only
when the flag is set) and the two branches. -/
def dart__pmem__open_at (E : Env) (w : World) (team : dart_team_t) (name : CString)
    (flags mode : Nat) (poolp : dart_pmem_pool_t) (full_path : CString) : OpenResult :=
  if flags &&& E.DART_PMEM_FILE_CREATE ≠ 0 then
    let acc := access_fails w full_path
    if acc.1 then dart__pmem__open_create E acc.2 team name mode poolp full_path
    else dart__pmem__open_existing E acc.2 team name poolp full_path
  else dart__pmem__open_existing E w team name poolp full_path

/-- The function `dart__pmem__open(team, name, flags, mode, poolp)`. The two leading
assertions hold by typing: `poolp` and `name` are values here, not pointers that may be null.
`dart_team_myid` is called also when assertions are compiled out; only the comparison of its
return code is dropped then. -/
def dart__pmem__open (E : Env) (w : World) (team : dart_team_t) (name : CString)
    (flags mode : Nat) (poolp : dart_pmem_pool_t) : OpenResult :=
  if flags &&& lnot32 (DART_PMEM_ALL_FLAGS E) ≠ 0 then
    ⟨Outcome.returned dart_ret_t.DART_ERR_INVAL, poolp, w⟩
  else if E.DART_TEAM_NULL = team then
    ⟨Outcome.returned dart_ret_t.DART_ERR_INVAL, poolp, w⟩
  else if name.length ≥ E.DART_NVM_POOL_NAME then
    ⟨Outcome.returned dart_ret_t.DART_ERR_INVAL, poolp, w⟩
  else
    let w1 := w.log (Event.ev_team_myid team)
    let q := E.dart_team_myid team
    if DART_ASSERT E (decide (q.1 = dart_ret_t.DART_OK)) then
      dart__pmem__open_at E w1 team name flags mode poolp (_tempname name q.2)
    else ⟨Outcome.aborted, poolp, w1⟩

/-- The transaction of `dart_pmem_bucket_alloc` on the pool content `f`: a new bucket, its
fields, the zero-filled data of `element_size * nelements` bytes, and the insertion at the head
of the list. `none` when one of the two allocations fails: the store then aborts the
transaction and nothing of it is kept (the two `abort()` lines after the allocations are not
reached, the store leaves the block before them). -/
def dart_pmem_bucket_alloc_tx (E : Env) (f : PoolFile) (args : dart_pmem_bucket_alloc_args) :
    Option (dart_pmem_bucket × PoolFile) :=
  match pmemobj_tx_alloc E f E.sizeof_bucket with
  | none => none
  | some (_, f1) =>
    match pmemobj_tx_zalloc E f1 (size_t_mul args.element_size args.nelements) with
    | none => none
    | some (d, f2) =>
      let node : dart_pmem_bucket :=
        { element_size := args.element_size, length := args.nelements, data := some d }
      some (node, { f2 with root := { f2.root with head := node :: f2.root.head } })

/-- The function `dart_pmem_bucket_alloc(pop, list, args)`: `none` is the `NULL` result, given
for a null list and for an aborted transaction; after a commit the direct pointer to the data
of the new bucket. -/
def dart_pmem_bucket_alloc (E : Env) (w : World) (pop : PMEMobjpool)
    (list : Option PMEMobjpool) (args : dart_pmem_bucket_alloc_args) :
    Option LocalPtr × World :=
  match list with
  | none => (none, w)
  | some _ =>
    match w.files pop with
    | none => (none, w)
    | some f =>
      match dart_pmem_bucket_alloc_tx E f args with
      | none => (none, w)
      | some (node, f1) =>
        (pmemobj_direct pop node.data,
          { w with files := Function.update w.files pop (some f1) })

/-- Result of `dart__pmem__alloc`: the return code, `*gptr` afterwards, the state afterwards. -/
structure AllocResult where
  ret : dart_ret_t
  gptr : dart_gptr_t
  world : World

/-- The function `dart__pmem__alloc(teamid, pool, nbytes, gptr)`. -/
def dart__pmem__alloc (E : Env) (w : World) (teamid : dart_team_t) (pool : dart_pmem_pool_t)
    (nbytes : Nat) (gptr : dart_gptr_t) : AllocResult :=
  match pool.pop with
  | none => ⟨dart_ret_t.DART_ERR_INVAL, gptr, w⟩
  | some pop =>
    if teamid ≠ pool.teamid then ⟨dart_ret_t.DART_ERR_INVAL, gptr, w⟩
    else
      let root_size := pmemobj_root_size w pop
      if root_size < E.sizeof_bucket_list then ⟨dart_ret_t.DART_ERR_INVAL, gptr, w⟩
      else
        let list := POBJ_ROOT E w pop
        let args : dart_pmem_bucket_alloc_args := { element_size := 1, nelements := nbytes }
        let m := dart_pmem_bucket_alloc E w pop list args
        match m.1 with
        | none => ⟨dart_ret_t.DART_ERR_OTHER, gptr, m.2⟩
        | some mem =>
          let g := E.dart_team_memregister teamid nbytes mem gptr
          ⟨g.1, g.2, m.2.log (Event.ev_team_memregister teamid nbytes mem)⟩

/-- The function `dart__pmem__close(pool)`: the return code and the state afterwards. -/
def dart__pmem__close (w : World) (pool : dart_pmem_pool_t) : dart_ret_t × World :=
  (dart_ret_t.DART_OK, pmemobj_close w pool.pop)

/-- The bucket list stored in the pool behind a handle. -/
def World.bucket_list (w : World) (pop : PMEMobjpool) : Option (List dart_pmem_bucket) :=
  (w.files pop).map (fun f => f.root.head)

/-! ## Concrete environments used to run the definitions -/

/-- A platform: create flag `1`, null team `-1`, names shorter than 8, root structure of
24 bytes, buckets of 32 bytes, assertions on, rank 10 in every team, registration that answers
`DART_PENDING`, a store with 4096 bytes, and roots whose first bytes spell `OID_NULL`. -/
def E0 : Env where
  DART_PMEM_FILE_CREATE := 1
  DART_TEAM_NULL := -1
  DART_NVM_POOL_NAME := 8
  DART_PMEM_MIN_POOL := 4096
  sizeof_bucket_list := 24
  sizeof_bucket := 32
  assertions := true
  dart_team_myid := fun _ => (dart_ret_t.DART_OK, 10)
  dart_team_memregister := fun _ n p _ => (dart_ret_t.DART_PENDING, ⟨10, 1, p.off + n⟩)
  room := fun f n => decide (f.brk + n ≤ 4096)
  can_create := fun _ _ _ => true
  root_first_bytes := fun _ => none
  constructor_through_toid := fun _ _ root => Outcome.returned (-1, root)

/-- The name `pool`. -/
def pool_name : CString := ['p', 'o', 'o', 'l']

/-- The path derived for `pool` and rank 10. -/
def pool_path : CString := ['p', 'o', 'o', 'l', '.', '1']

/-- A pool file with layout `pool`, a root of full size and one bucket of 4 bytes. -/
def file_rooted : PoolFile where
  layout := pool_name
  root_size := 24
  root := { name := pool_name, head := [{ element_size := 1, length := 4, data := some 56 }] }
  objects := [(56, [0, 0, 0, 0])]
  brk := 60

/-- A pool file with layout `pool` whose root object has 8 bytes only. -/
def file_small_root : PoolFile where
  layout := pool_name
  root_size := 8
  root := { name := [], head := [] }
  objects := []
  brk := 8

/-- A pool file with layout `pool` that is full. -/
def file_full : PoolFile where
  layout := pool_name
  root_size := 24
  root := { name := pool_name, head := [{ element_size := 1, length := 4, data := some 56 }] }
  objects := [(56, [0, 0, 0, 0])]
  brk := 4096

/-- A state with one file at `pool.1`, not mapped, and an empty trace. -/
def world_with (f : PoolFile) (mapped : Bool) : World where
  files := fun p => if p = pool_path then some f else none
  opened := fun p => if p = pool_path then mapped else false
  trace := []

/-- A state without files. -/
def world_empty : World where
  files := fun _ => none
  opened := fun _ => false
  trace := []

/-- An unset descriptor. -/
def pool_unset : dart_pmem_pool_t where
  size := 0
  path := []
  layout := []
  pop := none
  teamid := 0

/-- The descriptor of the pool `pool` of team 0, mapped from `pool.1`. -/
def pool_mapped : dart_pmem_pool_t where
  size := 0
  path := pool_path
  layout := pool_name
  pop := some pool_path
  teamid := 0

/-- A global pointer value. -/
def gptr_unset : dart_gptr_t := ⟨0, 0, 0⟩

/-! ## Shared-memory free-list allocator (`dart-shmem/dart_mempool_priv.h`)

The header declares the list node, the pool and the list primitives; the bodies of the
primitives and of the allocator's `alloc` and `free` are not among the sources and are
modelled from the specification (section 4.2). A position `pos` is kept as the offset of the
range from the start of the segment. -/

/-- One list node (`struct dart_mempool_list_entry`): position and size of a range; the `next`
link is the tail of the list the node is in. -/
structure dart_list_entry where
  pos : Nat
  size : Nat
  deriving DecidableEq, Repr

/-- A list of nodes (`dart_mempool_list`); the empty list is the null pointer. -/
abbrev dart_mempool_list := List dart_list_entry

/-- The pool (`struct dart_opaque_mempool`). -/
structure dart_opaque_mempool where
  free : dart_mempool_list
  allocated : dart_mempool_list
  shm_address : Nat
  localsize : Int
  shm_id : Int
  size : Nat
  deriving DecidableEq, Repr

/-- Errors of the shared-memory allocator named by the specification. -/
inductive dart_mempool_error
  | out_of_memory
  | invalid_argument
  deriving DecidableEq, Repr

/-- Result of an allocation: the extent handed out, or an error. -/
inductive dart_mempool_alloc_result
  | extent (e : dart_list_entry)
  | error (err : dart_mempool_error)
  deriving DecidableEq, Repr

/-- Modelled from the spec: the body of `dart_push_front(list, newEntry)` is missing; the
specification's `pushFront` prepends the entry. -/
def dart_push_front (list : dart_mempool_list) (newEntry : dart_list_entry) :
    dart_mempool_list :=
  newEntry :: list

/-- Modelled from the spec: the body of `dart_remove_list_entry(list, prev, toRemove)` is
missing; the specification's `remove` takes the node out of the list. The node `toRemove` is
given by its position `i` in the list (`prev` is the node before it). -/
def dart_remove_list_entry (list : dart_mempool_list) (i : Nat) : dart_mempool_list :=
  list.eraseIdx i

/-- Modelled from the spec: the body of `dart_insert_sorted(list, newEntry)` is missing; the
specification's `insertSorted` puts the entry at its sorted position in a list kept ascending
by offset: in front of the first node that lies behind it. -/
def dart_insert_sorted : dart_mempool_list → dart_list_entry → dart_mempool_list
  | [], newEntry => [newEntry]
  | current :: rest, newEntry =>
    if newEntry.pos < current.pos then newEntry :: current :: rest
    else current :: dart_insert_sorted rest newEntry

/-- Modelled from the spec: the scan of `melt` (the body of `dart_list_melt` is missing),
standing at the node `a` with the nodes `rest` still to visit: a next node that starts where
`a` ends is merged into `a` (sizes summed) and the scan stays at the merged node; otherwise
the scan moves on. -/
def dart_list_melt_from (a : dart_list_entry) : dart_mempool_list → dart_mempool_list
  | [] => [a]
  | b :: rest =>
    if a.pos + a.size = b.pos then
      dart_list_melt_from { pos := a.pos, size := a.size + b.size } rest
    else a :: dart_list_melt_from b rest

/-- Modelled from the spec: the body of `dart_list_melt(list)` is missing; the specification's
`melt` scans the sorted list once and merges every entry whose `offset + size` equals the
offset of the next entry into one entry with the summed size, until no adjacency remains. -/
def dart_list_melt : dart_mempool_list → dart_mempool_list
  | [] => []
  | a :: rest => dart_list_melt_from a rest

/-- Modelled from the spec: the first-fit scan of `alloc` (body missing): position of the
first node whose size is at least the requested size. -/
def dart_mempool_first_fit (size : Nat) : dart_mempool_list → Option Nat
  | [] => none
  | current :: rest =>
    if size ≤ current.size then some 0
    else (dart_mempool_first_fit size rest).map (fun i => i + 1)

/-- Modelled from the spec: the scan of `free` over the allocated list (body missing):
position of the first node at the given offset. -/
def dart_mempool_find_pos (pos : Nat) : dart_mempool_list → Option Nat
  | [] => none
  | current :: rest =>
    if current.pos = pos then some 0
    else (dart_mempool_find_pos pos rest).map (fun i => i + 1)

/-- Modelled from the spec: the allocator's `alloc(segment, size)` is missing. First fit over
the free list; an entry of exactly the requested size is removed, a larger one is shrunk in
place (the range handed out is its low end, as in the scenario of section 8); the carved entry
is prepended to the allocated list; without a large enough entry the call fails with
out-of-memory and changes nothing. -/
def dart_mempool_alloc (pool : dart_opaque_mempool) (size : Nat) :
    dart_mempool_alloc_result × dart_opaque_mempool :=
  match dart_mempool_first_fit size pool.free with
  | none => (dart_mempool_alloc_result.error dart_mempool_error.out_of_memory, pool)
  | some i =>
    match pool.free[i]? with
    | none => (dart_mempool_alloc_result.error dart_mempool_error.out_of_memory, pool)
    | some current =>
      let carved : dart_list_entry := { pos := current.pos, size := size }
      let free1 :=
        if current.size = size then dart_remove_list_entry pool.free i
        else pool.free.set i { pos := current.pos + size, size := current.size - size }
      (dart_mempool_alloc_result.extent carved,
        { pool with free := free1, allocated := dart_push_front pool.allocated carved })

/-- Modelled from the spec: the allocator's `free(segment, extent)` is missing. The entry at
the given offset is removed from the allocated list, inserted into the free list at its sorted
position, and the free list is melted; without such an entry the call fails with
invalid-argument and changes nothing. `none` is success. -/
def dart_mempool_free (pool : dart_opaque_mempool) (pos : Nat) :
    Option dart_mempool_error × dart_opaque_mempool :=
  match dart_mempool_find_pos pos pool.allocated with
  | none => (some dart_mempool_error.invalid_argument, pool)
  | some i =>
    match pool.allocated[i]? with
    | none => (some dart_mempool_error.invalid_argument, pool)
    | some current =>
      (none,
        { pool with
          allocated := dart_remove_list_entry pool.allocated i
          free := dart_list_melt (dart_insert_sorted pool.free current) })

/-- Modelled from the spec: the arena at its start (section 3): the free list is one entry
covering the whole segment, the allocated list is empty. -/
def dart_mempool_fresh (size : Nat) : dart_opaque_mempool where
  free := [{ pos := 0, size := size }]
  allocated := []
  shm_address := 0
  localsize := 0
  shm_id := 0
  size := size

/-- A call of the allocator. -/
inductive dart_mempool_call
  | alloc (size : Nat)
  | free (pos : Nat)
  deriving DecidableEq, Repr

/-- The pool after one call, whether the call succeeds or fails. -/
def dart_mempool_step (pool : dart_opaque_mempool) : dart_mempool_call → dart_opaque_mempool
  | dart_mempool_call.alloc size => (dart_mempool_alloc pool size).2
  | dart_mempool_call.free pos => (dart_mempool_free pool pos).2

/-- The pool after a sequence of calls. -/
def dart_mempool_run (pool : dart_opaque_mempool) (calls : List dart_mempool_call) :
    dart_opaque_mempool :=
  calls.foldl dart_mempool_step pool

/-- Sum of a quantity over the nodes of a list. -/
def dart_mempool_list_sum (f : dart_list_entry → Nat) (list : dart_mempool_list) : Nat :=
  (list.map f).sum

/-- Whether the address `x` lies in the range of a node, as `1` or `0`. -/
def dart_list_entry_covers (x : Nat) (e : dart_list_entry) : Nat :=
  if e.pos ≤ x ∧ x < e.pos + e.size then 1 else 0

/-- Whether every node of the list stands in the relation `r` to the node after it. -/
def dart_mempool_list_chain (r : dart_list_entry → dart_list_entry → Bool) :
    dart_mempool_list → Bool
  | [] => true
  | [_] => true
  | a :: b :: rest => r a b && dart_mempool_list_chain r (b :: rest)

/-- The list is ascending by offset. -/
abbrev dart_mempool_list_sorted (list : dart_mempool_list) : Prop :=
  dart_mempool_list_chain (fun a b => decide (a.pos ≤ b.pos)) list = true

/-- The list is sorted and non-overlapping: each node ends at or before the start of the
next. -/
abbrev dart_mempool_list_disjoint (list : dart_mempool_list) : Prop :=
  dart_mempool_list_chain (fun a b => decide (a.pos + a.size ≤ b.pos)) list = true

/-- The list is strictly ascending and maximally coalesced: each node ends strictly before
the start of the next. -/
abbrev dart_mempool_list_coalesced (list : dart_mempool_list) : Prop :=
  dart_mempool_list_chain (fun a b => decide (a.pos + a.size < b.pos)) list = true

/-- The calls of the scenario of section 8 on an arena of size 100. -/
def scenario_calls : List dart_mempool_call :=
  [dart_mempool_call.alloc 30, dart_mempool_call.alloc 50, dart_mempool_call.free 0,
   dart_mempool_call.alloc 20]

/-- Calls that hand out an empty range at offset 60 and free it after its neighbourhood has
been coalesced. -/
def empty_range_calls : List dart_mempool_call :=
  [dart_mempool_call.alloc 50, dart_mempool_call.alloc 10, dart_mempool_call.alloc 0,
   dart_mempool_call.free 50]

/-! ## `dash::internal::multiply_naive` and the extent checks of `dash::summa` (`SUMMA.h`)

The local blocks `A` and `B` are flat arrays, read as functions from the index to the value;
`C` is indexed as `C[j][i]`. Values are integers, indices natural numbers (exact
arithmetic). -/

/-- The assignment `C[j][i] = v`. -/
def matrix_set (C : Nat → Nat → Int) (j i : Nat) (v : Int) : Nat → Nat → Int :=
  fun j1 i1 => if j1 = j ∧ i1 = i then v else C j1 i1

/-- The loop over `k` of `multiply_naive` for row `i` and column `j`: starting from `c_sum`,
each round adds `A[ik] * B[kj]` with `ik = i * m + k` and `kj = k * m + j`. -/
def multiply_naive_k (A B : Nat → Int) (m i j : Nat) (c_sum : Int) : Int :=
  (List.range m).foldl (fun c_sum k => c_sum + A (i * m + k) * B (k * m + j)) c_sum

/-- The loop over `j` of `multiply_naive` for row `i`: `c_sum` starts as `C[j][i]`, and the
result of the loop over `k` is stored to `C[j][i]`. -/
def multiply_naive_j (A B : Nat → Int) (C : Nat → Nat → Int) (m p i : Nat) :
    Nat → Nat → Int :=
  (List.range p).foldl (fun C j => matrix_set C j i (multiply_naive_k A B m i j (C j i))) C

/-- The function `dash::internal::multiply_naive(A, B, C, m, n, p)`: the content of `C`
afterwards. -/
def multiply_naive (A B : Nat → Int) (C : Nat → Nat → Int) (m n p : Nat) : Nat → Nat → Int :=
  (List.range n).foldl (fun C i => multiply_naive_j A B C m p i) C

/-- The entry `(i, j)` of the product of `A` (`n x m`, row-major, so `A(i,k)` is
`A[i * m + k]`) and `B` (`m x p`, row-major, so `B(k,j)` is `B[k * p + j]`). -/
def product_entry (A B : Nat → Int) (m p i j : Nat) : Int :=
  ((List.range m).map (fun k => A (i * m + k) * B (k * p + j))).sum

/-- A flat array with the given content. -/
def flat_array (content : List Int) : Nat → Int := fun i => content.getD i 0

/-- What `dash::summa` reads of the pattern of an operand: `extent(d)` for a dimension `d`. -/
structure summa_pattern where
  extent : Nat → Nat

/-- The pattern of a matrix with the given numbers of columns (dimension 0) and rows
(dimension 1). -/
def summa_pattern_of (columns rows : Nat) : summa_pattern where
  extent := fun d => if d = 0 then columns else rows

/-- The three `DASH_ASSERT_EQ` of `dash::summa` on the pattern extents, in the order of the
source; `true` when all three compared pairs are equal. -/
def summa_extent_assertions (pattern_a pattern_b pattern_c : summa_pattern) : Bool :=
  decide (pattern_a.extent 1 = pattern_b.extent 0) &&
  decide (pattern_c.extent 0 = pattern_a.extent 0) &&
  decide (pattern_c.extent 1 = pattern_b.extent 1)

/-- The extents documented at `dash::summa`: `A` is `n x m`, `B` is `m x p`, `C` is `n x p`,
where `extent(0)` is the number of columns and `extent(1)` the number of rows (`m` is
`pattern_a.extent(0)`, `n` is `pattern_a.extent(1)`, `p` is `pattern_b.extent(0)`). -/
abbrev summa_documented_extents (n m p : Nat) (pattern_a pattern_b pattern_c : summa_pattern) :
    Prop :=
  pattern_a.extent 0 = m ∧ pattern_a.extent 1 = n ∧
  pattern_b.extent 0 = p ∧ pattern_b.extent 1 = m ∧
  pattern_c.extent 0 = p ∧ pattern_c.extent 1 = n

/-- Extents that fit a product `C = A * B`: the columns of `A` are the rows of `B`, `C` has
the rows of `A` and the columns of `B`. -/
abbrev summa_compatible_extents (pattern_a pattern_b pattern_c : summa_pattern) : Prop :=
  pattern_a.extent 0 = pattern_b.extent 1 ∧
  pattern_c.extent 1 = pattern_a.extent 1 ∧
  pattern_c.extent 0 = pattern_b.extent 0

/-! ## Unit locality map (`dart-impl/base/src/internal/unit_locality.c`) -/

/-- Hardware information of a unit (`dart_hwinfo_t`), with the fields the file touches. -/
structure dart_hwinfo_t where
  numa_id : Int
  cpu_id : Int
  num_cores : Int
  min_threads : Int
  max_threads : Int
  max_cpu_mhz : Int
  min_cpu_mhz : Int
  deriving DecidableEq, Repr

/-- Locality descriptor of a unit (`dart_unit_locality_t`). -/
structure dart_unit_locality_t where
  unit : Int
  domain_tag : CString
  host : CString
  hwinfo : dart_hwinfo_t
  deriving DecidableEq, Repr

/-- A pointer of type `dart_unit_locality_t *`: null, the sum
`_dart__base__unit_locality__map + i`, or a pointer to somewhere else. -/
inductive dart_unit_locality_ptr
  | null
  | map_plus (i : Int)
  | elsewhere (address : Nat)
  deriving DecidableEq, Repr

/-- The private data of the file: the array behind `_dart__base__unit_locality__map` and
`_dart__base__unit_locality__team_size_all`. -/
structure unit_locality_data where
  _dart__base__unit_locality__map : List dart_unit_locality_t
  _dart__base__unit_locality__team_size_all : Nat
  deriving DecidableEq, Repr

/-- What `dart__base__unit_locality__init` takes from outside: the assertion switch and the
answers of `dart_myid`, `dart_size`, `dart__base__unit_locality__local_unit_new` (the
descriptor it fills) and `dart_allgather` (the content it leaves in the receive buffer). -/
structure unit_locality_env where
  assertions : Bool
  dart_myid : dart_ret_t × Int
  dart_size : dart_ret_t × Nat
  local_unit_new : dart_ret_t × dart_unit_locality_t
  dart_allgather : dart_unit_locality_t → Nat → dart_ret_t × List dart_unit_locality_t

/-- The conversion `(size_t)(v)` of a signed integer. -/
def size_t_of_int (v : Int) : Nat := (v % 2 ^ 64).toNat

/-- The function `dart__base__unit_locality__init()`: the team size is recorded right after
the two queries; the map is allocated and gathered once the local descriptor is there. -/
def dart__base__unit_locality__init (L : unit_locality_env) (g : unit_locality_data) :
    Outcome dart_ret_t × unit_locality_data :=
  if L.assertions && decide (L.dart_myid.1 ≠ dart_ret_t.DART_OK) then (Outcome.aborted, g)
  else if L.assertions && decide (L.dart_size.1 ≠ dart_ret_t.DART_OK) then
    (Outcome.aborted, g)
  else
    let nunits := L.dart_size.2
    let g1 := { g with _dart__base__unit_locality__team_size_all := nunits }
    let ret := L.local_unit_new.1
    if ret ≠ dart_ret_t.DART_OK then (Outcome.returned ret, g1)
    else
      let gathered := L.dart_allgather L.local_unit_new.2 nunits
      let g2 := { g1 with _dart__base__unit_locality__map := gathered.2 }
      if gathered.1 ≠ dart_ret_t.DART_OK then (Outcome.returned gathered.1, g2)
      else (Outcome.returned dart_ret_t.DART_OK, g2)

/-- The function `dart__base__unit_locality__at(unit, loc)`: the return code and `*loc`
afterwards. -/
def dart__base__unit_locality__at (g : unit_locality_data) (unit : Int)
    (loc : dart_unit_locality_ptr) : dart_ret_t × dart_unit_locality_ptr :=
  if size_t_of_int unit ≥ g._dart__base__unit_locality__team_size_all then
    (dart_ret_t.DART_ERR_INVAL, loc)
  else (dart_ret_t.DART_OK, dart_unit_locality_ptr.map_plus unit)

/-- The descriptor a pointer refers to, when it points at an element of the map. -/
def unit_locality_data.deref (g : unit_locality_data) :
    dart_unit_locality_ptr → Option dart_unit_locality_t
  | dart_unit_locality_ptr.map_plus i =>
    if 0 ≤ i then g._dart__base__unit_locality__map[i.toNat]? else none
  | _ => none

/-- A descriptor for unit `u` on host `h`. -/
def locality_of (u : Int) : dart_unit_locality_t where
  unit := u
  domain_tag := ['.']
  host := ['h']
  hwinfo := ⟨0, 0, 1, 1, 1, 1000, 1000⟩

/-- An environment with three units, in which every collaborator answers `DART_OK`. -/
def L0 : unit_locality_env where
  assertions := true
  dart_myid := (dart_ret_t.DART_OK, 1)
  dart_size := (dart_ret_t.DART_OK, 3)
  local_unit_new := (dart_ret_t.DART_OK, locality_of 1)
  dart_allgather := fun _ _ => (dart_ret_t.DART_OK, [locality_of 0, locality_of 1, locality_of 2])

/-- The private data before initialisation. -/
def unit_locality_unset : unit_locality_data where
  _dart__base__unit_locality__map := []
  _dart__base__unit_locality__team_size_all := 0

/-- A quantity of ranges that adds up when a range is cut in two. -/
abbrev range_additive (f : dart_list_entry → Nat) : Prop :=
  ∀ p s t, f { pos := p, size := s + t } = f { pos := p, size := s } + f { pos := p + s, size := t }

/-- No call of the sequence asks for an empty range. -/
abbrev dart_mempool_calls_nonempty (calls : List dart_mempool_call) : Prop :=
  ∀ c ∈ calls, c ≠ dart_mempool_call.alloc 0

/-- State of a pool in a run without requests for empty ranges: either the arena is empty and
nothing is allocated, or the free list is sorted and non-overlapping, no entry of either list
is empty, and no address lies in two entries. -/
def dart_mempool_wf (pool : dart_opaque_mempool) : Prop :=
  (pool.free = [{ pos := 0, size := 0 }] ∧ pool.allocated = []) ∨
  (dart_mempool_list_disjoint pool.free ∧
    (∀ c ∈ pool.free, 0 < c.size) ∧
    (∀ c ∈ pool.allocated, 0 < c.size) ∧
    ∀ x, dart_mempool_list_sum (dart_list_entry_covers x) pool.free
      + dart_mempool_list_sum (dart_list_entry_covers x) pool.allocated ≤ 1)

/-! ## Path derivation -/

/-- C1 (the code departs from the claim): for the name `pool`, rank 10 derives the path
`pool.1`, which is not the name followed by `.10`, and it is the very path derived for
rank 1; the three-byte buffer of `_tempname` keeps the dot and one digit only. -/
theorem tempname_rank_10_collides_with_rank_1 :
    _tempname pool_name 10 = pool_path ∧
    _tempname pool_name 10 ≠ pool_name ++ '.' :: fmt_d 10 ∧
    _tempname pool_name 1 = _tempname pool_name 10 := by
  decide

/-! ## Outgoing calls of the store functions -/

theorem access_fails_trace (w : World) (p : CString) :
    (access_fails w p).2.trace = Event.ev_access p :: w.trace := rfl

theorem pmemobj_create_trace (E : Env) (w : World) (p l : CString) (sz mode : Nat) :
    (pmemobj_create E w p l sz mode).2.trace = Event.ev_pmemobj_create p l sz mode :: w.trace := by
  unfold pmemobj_create
  split <;> rfl

theorem pmemobj_open_trace (w : World) (p l : CString) :
    (pmemobj_open w p l).2.trace = Event.ev_pmemobj_open p l :: w.trace := by
  unfold pmemobj_open
  split
  · rfl
  · split <;> rfl

theorem pmemobj_root_construct_trace (E : Env) (w : World) (p : PMEMobjpool) (sz : Nat)
    (c : root_memory → Outcome (Int × dart_pmem_bucket_list)) :
    (pmemobj_root_construct E w p sz c).2.trace
      = Event.ev_pmemobj_root_construct p sz :: w.trace := by
  unfold pmemobj_root_construct
  split
  · rfl
  · split
    · rfl
    · split
      · rfl
      · split
        · rfl
        · split <;> rfl

theorem open_create_trace_suffix (E : Env) (w : World) (team : dart_team_t) (name : CString)
    (mode : Nat) (poolp : dart_pmem_pool_t) (full_path : CString) :
    w.trace <:+ (dart__pmem__open_create E w team name mode poolp full_path).world.trace := by
  have hc : w.trace <:+
      (pmemobj_create E w full_path name E.DART_PMEM_MIN_POOL mode).2.trace := by
    rw [pmemobj_create_trace]; exact List.suffix_cons _ _
  have hr : ∀ pop, w.trace <:+
      (pmemobj_root_construct E
        (pmemobj_create E w full_path name E.DART_PMEM_MIN_POOL mode).2 pop
        E.sizeof_bucket_list (_dart_pmem_list_new E { name := name })).2.trace := by
    intro pop
    rw [pmemobj_root_construct_trace]
    exact hc.trans (List.suffix_cons _ _)
  unfold dart__pmem__open_create
  dsimp only
  split
  · exact hc
  · split
    · exact hr _
    · split <;> exact hr _

theorem open_existing_trace_suffix (E : Env) (w : World) (team : dart_team_t)
    (name : CString) (poolp : dart_pmem_pool_t) (full_path : CString) :
    w.trace <:+ (dart__pmem__open_existing E w team name poolp full_path).world.trace := by
  have ho : w.trace <:+ (pmemobj_open w full_path name).2.trace := by
    rw [pmemobj_open_trace]; exact List.suffix_cons _ _
  unfold dart__pmem__open_existing
  dsimp only
  split
  · exact ho
  · split <;> exact ho

/-- Every call made by the part of `dart__pmem__open` behind the path derivation is added on
top of the trace. -/
theorem open_at_trace_suffix (E : Env) (w : World) (team : dart_team_t) (name : CString)
    (flags mode : Nat) (poolp : dart_pmem_pool_t) (full_path : CString) :
    w.trace <:+ (dart__pmem__open_at E w team name flags mode poolp full_path).world.trace := by
  have ha : w.trace <:+ (access_fails w full_path).2.trace := by
    rw [access_fails_trace]; exact List.suffix_cons _ _
  unfold dart__pmem__open_at
  dsimp only
  split
  · split
    · exact ha.trans (open_create_trace_suffix _ _ _ _ _ _ _)
    · exact ha.trans (open_existing_trace_suffix _ _ _ _ _ _)
  · exact open_existing_trace_suffix _ _ _ _ _ _

/-! ## Validation in `dart__pmem__open` -/

/-- The flag test of `dart__pmem__open` fires exactly when some bit of `flags` lies outside
the bits of `all`. -/
theorem land_lnot32_ne_zero_iff (flags all : Nat) (h : flags < 2 ^ 32) :
    flags &&& lnot32 all ≠ 0 ↔ ∃ i, flags.testBit i = true ∧ all.testBit i = false := by
  have h32 : (0xFFFFFFFF : Nat) = 2 ^ 32 - 1 := by norm_num
  have hhigh : ∀ i, 32 ≤ i → flags.testBit i = false := fun i hi =>
    Nat.testBit_eq_false_of_lt (lt_of_lt_of_le h (Nat.pow_le_pow_right (by norm_num) hi))
  constructor
  · intro hne
    by_contra hcon
    push_neg at hcon
    apply hne
    apply Nat.eq_of_testBit_eq
    intro i
    rw [Nat.testBit_and, Nat.zero_testBit, lnot32, Nat.testBit_xor, h32,
      Nat.testBit_two_pow_sub_one]
    cases hf : flags.testBit i with
    | false => rfl
    | true =>
      have ha := hcon i hf
      have hi : i < 32 := by
        by_contra hge
        push_neg at hge
        rw [hhigh i hge] at hf
        exact Bool.noConfusion hf
      simp at ha
      simp [ha, hi]
  · rintro ⟨i, hf, ha⟩ h0
    have hi : i < 32 := by
      by_contra hge
      push_neg at hge
      rw [hhigh i hge] at hf
      exact Bool.noConfusion hf
    have hb : (flags &&& lnot32 all).testBit i = true := by
      rw [Nat.testBit_and, lnot32, Nat.testBit_xor, h32, Nat.testBit_two_pow_sub_one]
      simp [hf, ha, hi]
    rw [h0] at hb
    simp at hb

/-- C2: a call of `dart__pmem__open` with a flag bit outside the create bit, with the null
team, or with a name of at least `DART_NVM_POOL_NAME` characters returns `DART_ERR_INVAL` and
leaves the descriptor and the whole state (files, mapped pools, trace of outgoing calls: no
rank query, no file access) as they were; a name of `DART_NVM_POOL_NAME - 1` characters with
flags inside the create bit and a team other than the null team gets past the validation: the
rank is queried next. -/
theorem open_invalid_argument_before_any_action (E : Env) (w : World) (team : dart_team_t)
    (name : CString) (flags mode : Nat) (poolp : dart_pmem_pool_t) (hflags : flags < 2 ^ 32) :
    (((∃ i, flags.testBit i = true ∧ E.DART_PMEM_FILE_CREATE.testBit i = false) ∨
        team = E.DART_TEAM_NULL ∨ E.DART_NVM_POOL_NAME ≤ name.length) →
      (dart__pmem__open E w team name flags mode poolp).ret
          = Outcome.returned dart_ret_t.DART_ERR_INVAL ∧
        (dart__pmem__open E w team name flags mode poolp).poolp = poolp ∧
        (dart__pmem__open E w team name flags mode poolp).world = w) ∧
    ((∀ i, flags.testBit i = true → E.DART_PMEM_FILE_CREATE.testBit i = true) →
      team ≠ E.DART_TEAM_NULL → name.length + 1 = E.DART_NVM_POOL_NAME →
      (Event.ev_team_myid team :: w.trace)
        <:+ (dart__pmem__open E w team name flags mode poolp).world.trace) := by
  have hbit := land_lnot32_ne_zero_iff flags (DART_PMEM_ALL_FLAGS E) hflags
  constructor
  · intro h
    unfold dart__pmem__open
    by_cases h1 : flags &&& lnot32 (DART_PMEM_ALL_FLAGS E) ≠ 0
    · rw [if_pos h1]; exact ⟨rfl, rfl, rfl⟩
    · rw [if_neg h1]
      by_cases h2 : E.DART_TEAM_NULL = team
      · rw [if_pos h2]; exact ⟨rfl, rfl, rfl⟩
      · rw [if_neg h2]
        by_cases h3 : name.length ≥ E.DART_NVM_POOL_NAME
        · rw [if_pos h3]; exact ⟨rfl, rfl, rfl⟩
        · exfalso
          rcases h with h | h | h
          · exact h1 (hbit.mpr h)
          · exact h2 h.symm
          · exact h3 h
  · intro hf ht hn
    have h1 : ¬ flags &&& lnot32 (DART_PMEM_ALL_FLAGS E) ≠ 0 := by
      rw [hbit]
      rintro ⟨i, hi, hc⟩
      have := hf i hi
      rw [DART_PMEM_ALL_FLAGS] at hc
      simp [this] at hc
    have h3 : ¬ name.length ≥ E.DART_NVM_POOL_NAME := by omega
    unfold dart__pmem__open
    rw [if_neg h1, if_neg (fun h => ht h.symm), if_neg h3]
    dsimp only
    split
    · exact open_at_trace_suffix E (w.log (Event.ev_team_myid team)) team name flags mode poolp _
    · exact List.suffix_refl _

/-- C2 at work: flags `2` are rejected on the empty state, and the name `pool` with a limit
of five characters gets past the validation. -/
theorem open_invalid_argument_before_any_action_witness :
    ((dart__pmem__open E0 world_empty 0 pool_name 2 0 pool_unset).ret
          = Outcome.returned dart_ret_t.DART_ERR_INVAL ∧
        (dart__pmem__open E0 world_empty 0 pool_name 2 0 pool_unset).poolp = pool_unset ∧
        (dart__pmem__open E0 world_empty 0 pool_name 2 0 pool_unset).world = world_empty) ∧
    ((Event.ev_team_myid 0 :: world_empty.trace)
        <:+ (dart__pmem__open { E0 with DART_NVM_POOL_NAME := 5 } world_empty 0 pool_name 1 0
              pool_unset).world.trace) :=
  ⟨(open_invalid_argument_before_any_action E0 world_empty 0 pool_name 2 0 pool_unset
      (by decide)).1 (Or.inl ⟨1, by decide, by decide⟩),
   (open_invalid_argument_before_any_action { E0 with DART_NVM_POOL_NAME := 5 } world_empty 0
      pool_name 1 0 pool_unset (by decide)).2
      (by
        intro i hi
        have h1 : (1 : Nat).testBit i = true := hi
        exact h1)
      (by decide) (by decide)⟩

/-! ## The existing-file branch of `dart__pmem__open` -/

theorem pmemobj_open_files (w : World) (p l : CString) :
    (pmemobj_open w p l).2.files = w.files := by
  unfold pmemobj_open
  split
  · rfl
  · split <;> rfl

theorem pmemobj_open_ok (w : World) (p l : CString) (f : PoolFile)
    (hfile : w.files p = some f) (hlayout : f.layout = l) (hclosed : w.opened p = false) :
    (pmemobj_open w p l).1 = some p ∧
      (pmemobj_open w p l).2.opened = Function.update w.opened p true := by
  unfold pmemobj_open
  rw [hfile]
  dsimp only
  rw [if_pos ⟨hlayout, hclosed⟩]
  exact ⟨rfl, rfl⟩

/-- With a file at the derived path, `dart__pmem__open_at` is the `else` branch, entered
after the `access` call when the create flag is set. -/
theorem open_at_of_file (E : Env) (w : World) (team : dart_team_t) (name : CString)
    (flags mode : Nat) (poolp : dart_pmem_pool_t) (full_path : CString) (f : PoolFile)
    (hfile : w.files full_path = some f) :
    dart__pmem__open_at E w team name flags mode poolp full_path
      = dart__pmem__open_existing E
          (if flags &&& E.DART_PMEM_FILE_CREATE ≠ 0 then w.log (Event.ev_access full_path)
            else w)
          team name poolp full_path := by
  unfold dart__pmem__open_at
  by_cases hc : flags &&& E.DART_PMEM_FILE_CREATE ≠ 0
  · rw [if_pos hc, if_pos hc]
    have : (access_fails w full_path).1 = false := by
      simp [access_fails, hfile]
    dsimp only
    rw [this]
    rfl
  · rw [if_neg hc, if_neg hc]

/-- The `else` branch on a file of the right layout that is not mapped yet and has a root of
non-zero size: `DART_OK`, the descriptor is filled, the pool is mapped, the files are left
as they are and the only call is `pmemobj_open`. -/
theorem open_existing_ok (E : Env) (w : World) (team : dart_team_t) (name : CString)
    (poolp : dart_pmem_pool_t) (full_path : CString) (f : PoolFile)
    (hfile : w.files full_path = some f) (hlayout : f.layout = name)
    (hclosed : w.opened full_path = false) (hroot : f.root_size ≠ 0) :
    dart__pmem__open_existing E w team name poolp full_path
      = ⟨Outcome.returned dart_ret_t.DART_OK,
          { size := 0, path := full_path, layout := name, pop := some full_path,
            teamid := team },
          (pmemobj_open w full_path name).2⟩ := by
  have hok := (pmemobj_open_ok w full_path name f hfile hlayout hclosed).1
  have hrs : pmemobj_root_size (pmemobj_open w full_path name).2 full_path = f.root_size := by
    unfold pmemobj_root_size
    rw [pmemobj_open_files, hfile]
  unfold dart__pmem__open_existing
  dsimp only
  rw [hok]
  dsimp only
  rw [hrs]
  have : DART_ASSERT E (decide (f.root_size ≠ 0)) = true := by
    simp [DART_ASSERT, hroot]
  rw [if_pos this]

/-- No path through `dart__pmem__open` returns `DART_ERR_OTHER`. -/
theorem open_never_other (E : Env) (w : World) (team : dart_team_t) (name : CString)
    (flags mode : Nat) (poolp : dart_pmem_pool_t) :
    (dart__pmem__open E w team name flags mode poolp).ret
      ≠ Outcome.returned dart_ret_t.DART_ERR_OTHER := by
  have hex : ∀ w1 p, (dart__pmem__open_existing E w1 team name poolp p).ret
      ≠ Outcome.returned dart_ret_t.DART_ERR_OTHER := by
    intro w1 p
    unfold dart__pmem__open_existing
    dsimp only
    split
    · simp
    · split <;> simp
  have hcr : ∀ w1 p, (dart__pmem__open_create E w1 team name mode poolp p).ret
      ≠ Outcome.returned dart_ret_t.DART_ERR_OTHER := by
    intro w1 p
    unfold dart__pmem__open_create
    dsimp only
    split
    · simp
    · split
      · simp
      · split <;> simp
  have hat : ∀ w1 p, (dart__pmem__open_at E w1 team name flags mode poolp p).ret
      ≠ Outcome.returned dart_ret_t.DART_ERR_OTHER := by
    intro w1 p
    unfold dart__pmem__open_at
    dsimp only
    split
    · split
      · exact hcr _ _
      · exact hex _ _
    · exact hex _ _
  unfold dart__pmem__open
  split
  · simp
  · split
    · simp
    · split
      · simp
      · dsimp only
        split
        · exact hat _ _
        · simp

/-- C3 (counterexample): the create flag is clear, the file `pool.1` exists and its root
object has 8 bytes, fewer than the 24 bytes of the root structure; `dart__pmem__open`
returns `DART_OK` and hands out a descriptor with a pool handle. -/
theorem open_undersized_root_returns_ok :
    file_small_root.root_size ≠ 0 ∧
    file_small_root.root_size < E0.sizeof_bucket_list ∧
    (dart__pmem__open E0 (world_with file_small_root false) 0 pool_name 0 0 pool_unset).ret
      = Outcome.returned dart_ret_t.DART_OK ∧
    (dart__pmem__open E0 (world_with file_small_root false) 0 pool_name 0 0 pool_unset).poolp.pop
      = some pool_path := by
  decide

/-- C3 (amended): `dart__pmem__open` never returns `DART_ERR_OTHER`; when it takes the
existing-file branch (a file is at the derived path) on a file of the right layout that the
store opens, and the root has a non-zero size, it returns `DART_OK` and fills the descriptor
with the path, the name, the handle and the team, also when the root is smaller than
the bucket-list root structure; such a root is rejected by every later `dart__pmem__alloc` on
that descriptor with `DART_ERR_INVAL`, without any change of state. -/
theorem open_existing_checks_root_nonzero_only (E : Env) (w : World) (team : dart_team_t)
    (name : CString) (flags mode : Nat) (poolp : dart_pmem_pool_t) (f : PoolFile) :
    (dart__pmem__open E w team name flags mode poolp).ret
        ≠ Outcome.returned dart_ret_t.DART_ERR_OTHER ∧
    (flags &&& lnot32 (DART_PMEM_ALL_FLAGS E) = 0 → team ≠ E.DART_TEAM_NULL →
      name.length < E.DART_NVM_POOL_NAME →
      (E.dart_team_myid team).1 = dart_ret_t.DART_OK →
      w.files (_tempname name (E.dart_team_myid team).2) = some f →
      f.layout = name →
      w.opened (_tempname name (E.dart_team_myid team).2) = false →
      f.root_size ≠ 0 →
      (dart__pmem__open E w team name flags mode poolp).ret
          = Outcome.returned dart_ret_t.DART_OK ∧
        (dart__pmem__open E w team name flags mode poolp).poolp
          = { size := 0, path := _tempname name (E.dart_team_myid team).2, layout := name,
              pop := some (_tempname name (E.dart_team_myid team).2), teamid := team } ∧
        (f.root_size < E.sizeof_bucket_list →
          ∀ nbytes gptr,
            (dart__pmem__alloc E (dart__pmem__open E w team name flags mode poolp).world team
                (dart__pmem__open E w team name flags mode poolp).poolp nbytes gptr).ret
              = dart_ret_t.DART_ERR_INVAL ∧
            (dart__pmem__alloc E (dart__pmem__open E w team name flags mode poolp).world team
                (dart__pmem__open E w team name flags mode poolp).poolp nbytes gptr).world
              = (dart__pmem__open E w team name flags mode poolp).world)) := by
  refine ⟨open_never_other E w team name flags mode poolp, ?_⟩
  intro hflags hteam hname hrank hfile hlayout hclosed hroot
  have hopen : dart__pmem__open E w team name flags mode poolp
      = ⟨Outcome.returned dart_ret_t.DART_OK,
          { size := 0, path := _tempname name (E.dart_team_myid team).2, layout := name,
            pop := some (_tempname name (E.dart_team_myid team).2), teamid := team },
          (pmemobj_open
            (if flags &&& E.DART_PMEM_FILE_CREATE ≠ 0 then
              (w.log (Event.ev_team_myid team)).log
                (Event.ev_access (_tempname name (E.dart_team_myid team).2))
             else w.log (Event.ev_team_myid team))
            (_tempname name (E.dart_team_myid team).2) name).2⟩ := by
    unfold dart__pmem__open
    rw [if_neg (by simpa using hflags), if_neg (fun h => hteam h.symm),
      if_neg (by omega)]
    dsimp only
    have hassert : DART_ASSERT E (decide ((E.dart_team_myid team).1 = dart_ret_t.DART_OK))
        = true := by
      simp [DART_ASSERT, hrank]
    rw [if_pos hassert]
    rw [open_at_of_file E (w.log (Event.ev_team_myid team)) team name flags mode poolp _ f hfile]
    apply open_existing_ok E _ team name poolp _ f
    · split <;> exact hfile
    · exact hlayout
    · split <;> exact hclosed
    · exact hroot
  rw [hopen]
  refine ⟨rfl, rfl, ?_⟩
  intro hsmall nbytes gptr
  have hrs : pmemobj_root_size
      (pmemobj_open
        (if flags &&& E.DART_PMEM_FILE_CREATE ≠ 0 then
          (w.log (Event.ev_team_myid team)).log
            (Event.ev_access (_tempname name (E.dart_team_myid team).2))
         else w.log (Event.ev_team_myid team))
        (_tempname name (E.dart_team_myid team).2) name).2
      (_tempname name (E.dart_team_myid team).2) = f.root_size := by
    unfold pmemobj_root_size
    rw [pmemobj_open_files]
    have : (if flags &&& E.DART_PMEM_FILE_CREATE ≠ 0 then
          (w.log (Event.ev_team_myid team)).log
            (Event.ev_access (_tempname name (E.dart_team_myid team).2))
         else w.log (Event.ev_team_myid team)).files = w.files := by
      split <;> rfl
    rw [this, hfile]
  unfold dart__pmem__alloc
  dsimp only
  rw [if_neg (by simp), hrs, if_pos hsmall]
  exact ⟨rfl, rfl⟩

/-- C3 (amended) at work: the file `pool.1` with a root of 8 bytes is opened with `DART_OK`,
and allocation on it is refused. -/
theorem open_existing_checks_root_nonzero_only_witness :
    (dart__pmem__open E0 (world_with file_small_root false) 0 pool_name 0 0 pool_unset).ret
        = Outcome.returned dart_ret_t.DART_OK ∧
    (dart__pmem__alloc E0
        (dart__pmem__open E0 (world_with file_small_root false) 0 pool_name 0 0 pool_unset).world
        0
        (dart__pmem__open E0 (world_with file_small_root false) 0 pool_name 0 0 pool_unset).poolp
        16 gptr_unset).ret = dart_ret_t.DART_ERR_INVAL :=
  have h := (open_existing_checks_root_nonzero_only E0 (world_with file_small_root false) 0
    pool_name 0 0 pool_unset file_small_root).2 (by decide) (by decide) (by decide) (by decide)
    (by decide) (by decide) (by decide) (by decide)
  ⟨h.1, (h.2.2 (by decide) 16 gptr_unset).1⟩

/-! ## `dart__pmem__alloc` -/

/-- What a committed bucket transaction leaves: the bucket carries the arguments and a
non-null data reference, the data object is new, zero-filled and of the size multiplied in
`size_t`, the bucket is the new head, and nothing else of the root changes. -/
theorem bucket_alloc_tx_commit (E : Env) (f f1 : PoolFile) (args : dart_pmem_bucket_alloc_args)
    (node : dart_pmem_bucket) (h : dart_pmem_bucket_alloc_tx E f args = some (node, f1)) :
    node = { element_size := args.element_size, length := args.nelements,
             data := some (f.brk + E.sizeof_bucket) } ∧
    f1.root.head = node :: f.root.head ∧
    f1.root.name = f.root.name ∧
    f1.layout = f.layout ∧
    f1.root_size = f.root_size ∧
    f1.objects = (f.brk + E.sizeof_bucket,
        List.replicate (size_t_mul args.element_size args.nelements) 0) :: f.objects := by
  unfold dart_pmem_bucket_alloc_tx pmemobj_tx_alloc at h
  split at h
  · exact Option.noConfusion h
  · rename_i x f0 heq
    split at heq
    · exact Option.noConfusion heq
    · cases heq
      unfold pmemobj_tx_zalloc at h
      split at h
      · exact Option.noConfusion h
      · rename_i d f2 heq2
        split at heq2
        · exact Option.noConfusion heq2
        · cases heq2
          cases h
          exact ⟨rfl, rfl, rfl, rfl, rfl, rfl⟩

/-- The bucket transaction aborts exactly when the store has no room for the bucket or for the
data, or one of the two sizes is zero. -/
theorem bucket_alloc_tx_abort_iff (E : Env) (f : PoolFile)
    (args : dart_pmem_bucket_alloc_args) :
    dart_pmem_bucket_alloc_tx E f args = none ↔
      (E.sizeof_bucket = 0 ∨ E.room f E.sizeof_bucket = false) ∨
      (size_t_mul args.element_size args.nelements = 0 ∨
        E.room { f with brk := f.brk + E.sizeof_bucket }
          (size_t_mul args.element_size args.nelements) = false) := by
  unfold dart_pmem_bucket_alloc_tx pmemobj_tx_alloc
  by_cases h1 : E.sizeof_bucket = 0 ∨ E.room f E.sizeof_bucket = false
  · rw [if_pos h1]
    simp [h1]
  · rw [if_neg h1]
    dsimp only
    unfold pmemobj_tx_zalloc
    by_cases h2 : size_t_mul args.element_size args.nelements = 0 ∨
        E.room { f with brk := f.brk + E.sizeof_bucket }
          (size_t_mul args.element_size args.nelements) = false
    · rw [if_pos h2]
      simp [h2]
    · rw [if_neg h2]
      simp [h1, h2]

/-- The function `dart__pmem__alloc` on a descriptor that passes the three checks: the bucket
transaction runs on the pool content; an abort gives `DART_ERR_OTHER` on the unchanged state,
a commit stores the new content and forwards to the registration. -/
theorem alloc_of_valid (E : Env) (w : World) (teamid : dart_team_t) (pool : dart_pmem_pool_t)
    (nbytes : Nat) (gptr : dart_gptr_t) (pop : PMEMobjpool) (f : PoolFile)
    (hpop : pool.pop = some pop) (hteam : teamid = pool.teamid)
    (hfile : w.files pop = some f) (hroot : E.sizeof_bucket_list ≤ f.root_size) :
    dart__pmem__alloc E w teamid pool nbytes gptr =
      match dart_pmem_bucket_alloc_tx E f { element_size := 1, nelements := nbytes } with
      | none => ⟨dart_ret_t.DART_ERR_OTHER, gptr, w⟩
      | some (_, f1) =>
        ⟨(E.dart_team_memregister teamid nbytes
            { pool := pop, off := f.brk + E.sizeof_bucket } gptr).1,
         (E.dart_team_memregister teamid nbytes
            { pool := pop, off := f.brk + E.sizeof_bucket } gptr).2,
         ({ w with files := Function.update w.files pop (some f1) }).log
            (Event.ev_team_memregister teamid nbytes
              { pool := pop, off := f.brk + E.sizeof_bucket })⟩ := by
  have hrs : pmemobj_root_size w pop = f.root_size := by
    unfold pmemobj_root_size; rw [hfile]
  have hlist : POBJ_ROOT E w pop = some pop := by
    unfold POBJ_ROOT; rw [hfile]; dsimp only; rw [if_pos hroot]
  unfold dart__pmem__alloc
  rw [hpop]
  dsimp only
  rw [if_neg (by simpa using hteam), hrs, if_neg (by omega), hlist]
  unfold dart_pmem_bucket_alloc
  dsimp only
  rw [hfile]
  dsimp only
  cases htx : dart_pmem_bucket_alloc_tx E f { element_size := 1, nelements := nbytes } with
  | none => rfl
  | some r =>
    obtain ⟨node, f1⟩ := r
    have hnode := (bucket_alloc_tx_commit E f f1 _ node htx).1
    dsimp only
    rw [hnode]
    rfl

/-- C4: on a descriptor that passes the checks of `dart__pmem__alloc`, an aborted bucket
transaction yields `DART_ERR_OTHER`; `dart_pmem_bucket_alloc` gives the null pointer, `*gptr`
is not written and the state is the one before the call: the same files (hence the same
buckets in the same order) and the same trace (the registration is not called). -/
theorem alloc_abort_returns_other_and_keeps_state (E : Env) (w : World) (teamid : dart_team_t)
    (pool : dart_pmem_pool_t) (nbytes : Nat) (gptr : dart_gptr_t) (pop : PMEMobjpool)
    (f : PoolFile) (hpop : pool.pop = some pop) (hteam : teamid = pool.teamid)
    (hfile : w.files pop = some f) (hroot : E.sizeof_bucket_list ≤ f.root_size)
    (habort : dart_pmem_bucket_alloc_tx E f { element_size := 1, nelements := nbytes } = none) :
    (dart__pmem__alloc E w teamid pool nbytes gptr).ret = dart_ret_t.DART_ERR_OTHER ∧
    (dart_pmem_bucket_alloc E w pop (POBJ_ROOT E w pop)
        { element_size := 1, nelements := nbytes }).1 = none ∧
    (dart__pmem__alloc E w teamid pool nbytes gptr).gptr = gptr ∧
    (dart__pmem__alloc E w teamid pool nbytes gptr).world = w ∧
    (dart__pmem__alloc E w teamid pool nbytes gptr).world.bucket_list pop
      = some f.root.head := by
  have hb : (dart_pmem_bucket_alloc E w pop (POBJ_ROOT E w pop)
        { element_size := 1, nelements := nbytes }).1 = none := by
    unfold dart_pmem_bucket_alloc
    split
    · rfl
    · rw [hfile]
      dsimp only
      rw [habort]
  rw [alloc_of_valid E w teamid pool nbytes gptr pop f hpop hteam hfile hroot, habort]
  refine ⟨rfl, hb, rfl, rfl, ?_⟩
  simp [World.bucket_list, hfile]

/-- C4 at work: the full pool `pool.1` has no room for 16 bytes. -/
theorem alloc_abort_returns_other_and_keeps_state_witness :
    (dart__pmem__alloc E0 (world_with file_full true) 0 pool_mapped 16 gptr_unset).ret
      = dart_ret_t.DART_ERR_OTHER ∧
    (dart__pmem__alloc E0 (world_with file_full true) 0 pool_mapped 16 gptr_unset).world
      = world_with file_full true :=
  have h := alloc_abort_returns_other_and_keeps_state E0 (world_with file_full true) 0
    pool_mapped 16 gptr_unset pool_path file_full rfl rfl (by decide) (by decide) (by decide)
  ⟨h.1, h.2.2.2.1⟩

/-- After a commit `dart_pmem_bucket_alloc` gives the direct pointer to the data of the new
bucket and stores the new pool content. -/
theorem bucket_alloc_of_commit (E : Env) (w : World) (pop : PMEMobjpool) (f f1 : PoolFile)
    (args : dart_pmem_bucket_alloc_args) (node : dart_pmem_bucket)
    (hfile : w.files pop = some f) (hroot : E.sizeof_bucket_list ≤ f.root_size)
    (htx : dart_pmem_bucket_alloc_tx E f args = some (node, f1)) :
    dart_pmem_bucket_alloc E w pop (POBJ_ROOT E w pop) args
      = (some { pool := pop, off := f.brk + E.sizeof_bucket },
         { w with files := Function.update w.files pop (some f1) }) := by
  have hlist : POBJ_ROOT E w pop = some pop := by
    unfold POBJ_ROOT; rw [hfile]; dsimp only; rw [if_pos hroot]
  have hnode := (bucket_alloc_tx_commit E f f1 args node htx).1
  rw [hlist]
  unfold dart_pmem_bucket_alloc
  dsimp only
  rw [hfile]
  dsimp only
  rw [htx]
  dsimp only
  rw [hnode]
  rfl

/-- C5: on a descriptor that passes the checks, with `nbytes` a `size_t` value, a committed
bucket transaction leaves in the pool the list `b :: L`, where `L` is the list before the call
(same buckets, same order) and `b` has element size 1, `nbytes` elements and a non-null data
reference to an object of `nbytes` bytes in the same pool. -/
theorem alloc_commit_links_new_bucket_at_head (E : Env) (w : World) (teamid : dart_team_t)
    (pool : dart_pmem_pool_t) (nbytes : Nat) (gptr : dart_gptr_t) (pop : PMEMobjpool)
    (f : PoolFile) (hpop : pool.pop = some pop) (hteam : teamid = pool.teamid)
    (hfile : w.files pop = some f) (hroot : E.sizeof_bucket_list ≤ f.root_size)
    (hn : nbytes < 2 ^ 64)
    (hcommit :
      (dart_pmem_bucket_alloc_tx E f { element_size := 1, nelements := nbytes }).isSome) :
    w.bucket_list pop = some f.root.head ∧
    ∃ b d bytes,
      (dart__pmem__alloc E w teamid pool nbytes gptr).world.bucket_list pop
        = some (b :: f.root.head) ∧
      b.element_size = 1 ∧ b.length = nbytes ∧ b.data = some d ∧
      (dart__pmem__alloc E w teamid pool nbytes gptr).world.bytes_at { pool := pop, off := d }
        = some bytes ∧
      bytes.length = nbytes := by
  refine ⟨by simp [World.bucket_list, hfile], ?_⟩
  obtain ⟨r, htx⟩ := Option.isSome_iff_exists.mp hcommit
  obtain ⟨node, f1⟩ := r
  obtain ⟨hnode, hhead, -, -, -, hobj⟩ := bucket_alloc_tx_commit E f f1 _ node htx
  have hmul : size_t_mul 1 nbytes = nbytes := by
    unfold size_t_mul
    rw [Nat.one_mul]
    exact Nat.mod_eq_of_lt hn
  rw [alloc_of_valid E w teamid pool nbytes gptr pop f hpop hteam hfile hroot, htx]
  refine ⟨node, f.brk + E.sizeof_bucket, List.replicate nbytes 0, ?_, ?_, ?_, ?_, ?_, ?_⟩
  · simp [World.bucket_list, World.log, hhead]
  · rw [hnode]
  · rw [hnode]
  · rw [hnode]
  · simp only [World.bytes_at, World.log, Function.update_same]
    rw [hobj]
    dsimp only at hmul ⊢
    rw [hmul]
    simp [List.lookup]
  · simp

/-- C5 at work: 16 bytes are allocated in the pool `pool.1`, which holds one bucket. -/
theorem alloc_commit_links_new_bucket_at_head_witness :
    ∃ b d bytes,
      (dart__pmem__alloc E0 (world_with file_rooted true) 0 pool_mapped 16
          gptr_unset).world.bucket_list pool_path
        = some (b :: file_rooted.root.head) ∧
      b.element_size = 1 ∧ b.length = 16 ∧ b.data = some d ∧
      (dart__pmem__alloc E0 (world_with file_rooted true) 0 pool_mapped 16
          gptr_unset).world.bytes_at { pool := pool_path, off := d }
        = some bytes ∧
      bytes.length = 16 :=
  (alloc_commit_links_new_bucket_at_head E0 (world_with file_rooted true) 0 pool_mapped 16
    gptr_unset pool_path file_rooted rfl rfl (by decide) (by decide) (by decide)
    (by decide)).2

/-- C6: when `dart__pmem__alloc` returns `DART_OK` for a `size_t` value `nbytes`, the one call
it added to the trace is the registration of `(teamid, nbytes, mem)`, where `mem` points into
the pool of the descriptor at the data of the bucket newly linked at the head of the list; that
bucket has element size 1 and `nbytes` elements, and the object at `mem` consists of exactly
`nbytes` zero bytes. -/
theorem alloc_ok_registers_zeroed_extent (E : Env) (w : World) (teamid : dart_team_t)
    (pool : dart_pmem_pool_t) (nbytes : Nat) (gptr : dart_gptr_t) (hn : nbytes < 2 ^ 64)
    (hok : (dart__pmem__alloc E w teamid pool nbytes gptr).ret = dart_ret_t.DART_OK) :
    ∃ mem b rest,
      (dart__pmem__alloc E w teamid pool nbytes gptr).world.trace
        = Event.ev_team_memregister teamid nbytes mem :: w.trace ∧
      pool.pop = some mem.pool ∧
      w.bucket_list mem.pool = some rest ∧
      (dart__pmem__alloc E w teamid pool nbytes gptr).world.bucket_list mem.pool
        = some (b :: rest) ∧
      b.data = some mem.off ∧
      b.element_size = 1 ∧ b.length = nbytes ∧ b.element_size * b.length = nbytes ∧
      (dart__pmem__alloc E w teamid pool nbytes gptr).world.bytes_at mem
        = some (List.replicate nbytes 0) := by
  cases hp : pool.pop with
  | none =>
    exfalso
    unfold dart__pmem__alloc at hok
    rw [hp] at hok
    exact dart_ret_t.noConfusion hok
  | some pop =>
    by_cases ht : teamid = pool.teamid
    swap
    · exfalso
      unfold dart__pmem__alloc at hok
      rw [hp] at hok
      dsimp only at hok
      rw [if_pos ht] at hok
      exact dart_ret_t.noConfusion hok
    cases hf : w.files pop with
    | none =>
      exfalso
      have hlist : POBJ_ROOT E w pop = none := by
        unfold POBJ_ROOT; rw [hf]
      unfold dart__pmem__alloc at hok
      rw [hp] at hok
      dsimp only at hok
      rw [if_neg (by simpa using ht), hlist] at hok
      split at hok
      · exact dart_ret_t.noConfusion hok
      · unfold dart_pmem_bucket_alloc at hok
        exact dart_ret_t.noConfusion hok
    | some f =>
      by_cases hr : E.sizeof_bucket_list ≤ f.root_size
      swap
      · exfalso
        have hrs : pmemobj_root_size w pop = f.root_size := by
          unfold pmemobj_root_size; rw [hf]
        unfold dart__pmem__alloc at hok
        rw [hp] at hok
        dsimp only at hok
        rw [if_neg (by simpa using ht), hrs, if_pos (by omega)] at hok
        exact dart_ret_t.noConfusion hok
      rw [alloc_of_valid E w teamid pool nbytes gptr pop f hp ht hf hr] at hok ⊢
      cases htx : dart_pmem_bucket_alloc_tx E f { element_size := 1, nelements := nbytes } with
      | none =>
        rw [htx] at hok
        exact dart_ret_t.noConfusion hok
      | some r =>
        obtain ⟨node, f1⟩ := r
        obtain ⟨hnode, hhead, -, -, -, hobj⟩ := bucket_alloc_tx_commit E f f1 _ node htx
        have hmul : size_t_mul 1 nbytes = nbytes := by
          unfold size_t_mul
          rw [Nat.one_mul]
          exact Nat.mod_eq_of_lt hn
        refine ⟨{ pool := pop, off := f.brk + E.sizeof_bucket }, node, f.root.head,
          rfl, rfl, ?_, ?_, ?_, ?_, ?_, ?_, ?_⟩
        · simp [World.bucket_list, hf]
        · simp [World.bucket_list, World.log, hhead]
        · rw [hnode]
        · rw [hnode]
        · rw [hnode]
        · rw [hnode]; simp
        · simp only [World.bytes_at, World.log, Function.update_same]
          rw [hobj]
          dsimp only at hmul ⊢
          rw [hmul]
          simp [List.lookup]

/-- C6 at work: with a registration that answers `DART_OK`, 16 bytes are allocated in the
pool `pool.1`. -/
theorem alloc_ok_registers_zeroed_extent_witness :
    ∃ mem b rest,
      (dart__pmem__alloc
          { E0 with dart_team_memregister := fun _ _ _ g => (dart_ret_t.DART_OK, g) }
          (world_with file_rooted true) 0 pool_mapped 16 gptr_unset).world.trace
        = Event.ev_team_memregister 0 16 mem :: (world_with file_rooted true).trace ∧
      pool_mapped.pop = some mem.pool ∧
      (world_with file_rooted true).bucket_list mem.pool = some rest ∧
      (dart__pmem__alloc
          { E0 with dart_team_memregister := fun _ _ _ g => (dart_ret_t.DART_OK, g) }
          (world_with file_rooted true) 0 pool_mapped 16 gptr_unset).world.bucket_list mem.pool
        = some (b :: rest) ∧
      b.data = some mem.off ∧
      b.element_size = 1 ∧ b.length = 16 ∧ b.element_size * b.length = 16 ∧
      (dart__pmem__alloc
          { E0 with dart_team_memregister := fun _ _ _ g => (dart_ret_t.DART_OK, g) }
          (world_with file_rooted true) 0 pool_mapped 16 gptr_unset).world.bytes_at mem
        = some (List.replicate 16 0) :=
  alloc_ok_registers_zeroed_extent
    { E0 with dart_team_memregister := fun _ _ _ g => (dart_ret_t.DART_OK, g) }
    (world_with file_rooted true) 0 pool_mapped 16 gptr_unset (by decide) (by decide)

/-- C7: `dart__pmem__alloc` returns `DART_ERR_INVAL` when the pool handle is null, when the
team differs from the team of the descriptor, and when the root of the pool is smaller than
the bucket-list root structure; `*gptr` is not written and the state is the one before the
call: no bucket is allocated, the files (hence every bucket list) and the trace (no
registration call) are unchanged. -/
theorem alloc_invalid_argument_keeps_state (E : Env) (w : World) (teamid : dart_team_t)
    (pool : dart_pmem_pool_t) (nbytes : Nat) (gptr : dart_gptr_t)
    (h : pool.pop = none ∨ teamid ≠ pool.teamid ∨
      ∃ pop, pool.pop = some pop ∧ pmemobj_root_size w pop < E.sizeof_bucket_list) :
    (dart__pmem__alloc E w teamid pool nbytes gptr).ret = dart_ret_t.DART_ERR_INVAL ∧
    (dart__pmem__alloc E w teamid pool nbytes gptr).gptr = gptr ∧
    (dart__pmem__alloc E w teamid pool nbytes gptr).world = w := by
  unfold dart__pmem__alloc
  cases hp : pool.pop with
  | none => exact ⟨rfl, rfl, rfl⟩
  | some pop =>
    dsimp only
    by_cases ht : teamid ≠ pool.teamid
    · rw [if_pos ht]; exact ⟨rfl, rfl, rfl⟩
    · rw [if_neg ht]
      by_cases hr : pmemobj_root_size w pop < E.sizeof_bucket_list
      · rw [if_pos hr]; exact ⟨rfl, rfl, rfl⟩
      · exfalso
        rcases h with h | h | ⟨q, hq, hlt⟩
        · rw [hp] at h; exact Option.noConfusion h
        · exact ht h
        · rw [hp] at hq
          cases hq
          exact hr hlt

/-- C7 at work: a null handle, a foreign team and an undersized root are refused. -/
theorem alloc_invalid_argument_keeps_state_witness :
    ((dart__pmem__alloc E0 world_empty 0 pool_unset 16 gptr_unset).ret
        = dart_ret_t.DART_ERR_INVAL ∧
      (dart__pmem__alloc E0 world_empty 0 pool_unset 16 gptr_unset).gptr = gptr_unset ∧
      (dart__pmem__alloc E0 world_empty 0 pool_unset 16 gptr_unset).world = world_empty) ∧
    (dart__pmem__alloc E0 (world_with file_rooted true) 7 pool_mapped 16 gptr_unset).ret
        = dart_ret_t.DART_ERR_INVAL ∧
    (dart__pmem__alloc E0 (world_with file_small_root true) 0 pool_mapped 16 gptr_unset).ret
        = dart_ret_t.DART_ERR_INVAL :=
  ⟨alloc_invalid_argument_keeps_state E0 world_empty 0 pool_unset 16 gptr_unset (Or.inl rfl),
   (alloc_invalid_argument_keeps_state E0 (world_with file_rooted true) 7 pool_mapped 16
      gptr_unset (Or.inr (Or.inl (by decide)))).1,
   (alloc_invalid_argument_keeps_state E0 (world_with file_small_root true) 0 pool_mapped 16
      gptr_unset (Or.inr (Or.inr ⟨pool_path, rfl, by decide⟩))).1⟩

/-- C10: on a descriptor that passes the checks, after a committed bucket transaction the
return code of `dart__pmem__alloc` and the value left in `*gptr` are those of
`dart_team_memregister(teamid, nbytes, mem, gptr)`, where `mem` is the pointer given by
`dart_pmem_bucket_alloc`, whatever the code is; the call added exactly that one registration
to the trace. -/
theorem alloc_commit_forwards_registration_result (E : Env) (w : World)
    (teamid : dart_team_t) (pool : dart_pmem_pool_t) (nbytes : Nat) (gptr : dart_gptr_t)
    (pop : PMEMobjpool) (f : PoolFile) (hpop : pool.pop = some pop)
    (hteam : teamid = pool.teamid) (hfile : w.files pop = some f)
    (hroot : E.sizeof_bucket_list ≤ f.root_size)
    (hcommit :
      (dart_pmem_bucket_alloc_tx E f { element_size := 1, nelements := nbytes }).isSome) :
    ∃ mem,
      (dart_pmem_bucket_alloc E w pop (POBJ_ROOT E w pop)
          { element_size := 1, nelements := nbytes }).1 = some mem ∧
      (dart__pmem__alloc E w teamid pool nbytes gptr).ret
        = (E.dart_team_memregister teamid nbytes mem gptr).1 ∧
      (dart__pmem__alloc E w teamid pool nbytes gptr).gptr
        = (E.dart_team_memregister teamid nbytes mem gptr).2 ∧
      (dart__pmem__alloc E w teamid pool nbytes gptr).world.trace
        = Event.ev_team_memregister teamid nbytes mem :: w.trace := by
  obtain ⟨r, htx⟩ := Option.isSome_iff_exists.mp hcommit
  obtain ⟨node, f1⟩ := r
  refine ⟨{ pool := pop, off := f.brk + E.sizeof_bucket }, ?_, ?_, ?_, ?_⟩
  · rw [bucket_alloc_of_commit E w pop f f1 _ node hfile hroot htx]
  · rw [alloc_of_valid E w teamid pool nbytes gptr pop f hpop hteam hfile hroot, htx]
  · rw [alloc_of_valid E w teamid pool nbytes gptr pop f hpop hteam hfile hroot, htx]
  · rw [alloc_of_valid E w teamid pool nbytes gptr pop f hpop hteam hfile hroot, htx]
    rfl

/-- C10 at work: the registration answers `DART_PENDING`, and so does `dart__pmem__alloc`. -/
theorem alloc_commit_forwards_registration_result_witness :
    (dart__pmem__alloc E0 (world_with file_rooted true) 0 pool_mapped 16 gptr_unset).ret
      = dart_ret_t.DART_PENDING :=
  match alloc_commit_forwards_registration_result E0 (world_with file_rooted true) 0
      pool_mapped 16 gptr_unset pool_path file_rooted rfl rfl (by decide) (by decide)
      (by decide) with
  | ⟨_, _, h, _⟩ => h.trans rfl

/-! ## Close and re-open, creation -/

/-- The whole of `dart__pmem__open` on valid arguments when a file of the right layout, not
mapped and with a root of non-zero size, is at the derived path: `DART_OK`, the filled
descriptor, and the state left by `pmemobj_open`. -/
theorem open_of_file (E : Env) (w : World) (team : dart_team_t) (name : CString)
    (flags mode : Nat) (poolp : dart_pmem_pool_t) (f : PoolFile)
    (hflags : flags &&& lnot32 (DART_PMEM_ALL_FLAGS E) = 0) (hteam : team ≠ E.DART_TEAM_NULL)
    (hname : name.length < E.DART_NVM_POOL_NAME)
    (hrank : (E.dart_team_myid team).1 = dart_ret_t.DART_OK)
    (hfile : w.files (_tempname name (E.dart_team_myid team).2) = some f)
    (hlayout : f.layout = name)
    (hclosed : w.opened (_tempname name (E.dart_team_myid team).2) = false)
    (hroot : f.root_size ≠ 0) :
    dart__pmem__open E w team name flags mode poolp
      = ⟨Outcome.returned dart_ret_t.DART_OK,
          { size := 0, path := _tempname name (E.dart_team_myid team).2, layout := name,
            pop := some (_tempname name (E.dart_team_myid team).2), teamid := team },
          (pmemobj_open
            (if flags &&& E.DART_PMEM_FILE_CREATE ≠ 0 then
              (w.log (Event.ev_team_myid team)).log
                (Event.ev_access (_tempname name (E.dart_team_myid team).2))
             else w.log (Event.ev_team_myid team))
            (_tempname name (E.dart_team_myid team).2) name).2⟩ := by
  unfold dart__pmem__open
  rw [if_neg (by simpa using hflags), if_neg (fun h => hteam h.symm), if_neg (by omega)]
  dsimp only
  have hassert : DART_ASSERT E (decide ((E.dart_team_myid team).1 = dart_ret_t.DART_OK))
      = true := by
    simp [DART_ASSERT, hrank]
  rw [if_pos hassert]
  rw [open_at_of_file E (w.log (Event.ev_team_myid team)) team name flags mode poolp _ f hfile]
  apply open_existing_ok E _ team name poolp _ f
  · split <;> exact hfile
  · exact hlayout
  · split <;> exact hclosed
  · exact hroot

/-- C8: for a descriptor of the pool `name` of this rank (handle at the derived path, file of
layout `name` with a root of non-zero size), `dart__pmem__close` returns `DART_OK` and leaves
every file as it is; a following `dart__pmem__open` of the same name by the same rank, with or
without the create flag, returns `DART_OK` with a handle on the same file, leaves every file
as it is, so that the bucket list is the one before the close, and its only calls are the
rank query, `access` when the create flag is set, and `pmemobj_open`: neither
`pmemobj_create` nor the root constructor runs. -/
theorem close_then_open_keeps_bucket_list (E : Env) (w : World) (team : dart_team_t)
    (name : CString) (flags mode : Nat) (pool poolp : dart_pmem_pool_t) (f : PoolFile)
    (hflags : flags &&& lnot32 (DART_PMEM_ALL_FLAGS E) = 0) (hteam : team ≠ E.DART_TEAM_NULL)
    (hname : name.length < E.DART_NVM_POOL_NAME)
    (hrank : (E.dart_team_myid team).1 = dart_ret_t.DART_OK)
    (hpop : pool.pop = some (_tempname name (E.dart_team_myid team).2))
    (hfile : w.files (_tempname name (E.dart_team_myid team).2) = some f)
    (hlayout : f.layout = name) (hroot : f.root_size ≠ 0) :
    (dart__pmem__close w pool).1 = dart_ret_t.DART_OK ∧
    (dart__pmem__close w pool).2.files = w.files ∧
    (dart__pmem__open E (dart__pmem__close w pool).2 team name flags mode poolp).ret
      = Outcome.returned dart_ret_t.DART_OK ∧
    (dart__pmem__open E (dart__pmem__close w pool).2 team name flags mode poolp).poolp.pop
      = pool.pop ∧
    (dart__pmem__open E (dart__pmem__close w pool).2 team name flags mode poolp).world.files
      = w.files ∧
    (dart__pmem__open E (dart__pmem__close w pool).2 team name flags mode
        poolp).world.bucket_list (_tempname name (E.dart_team_myid team).2)
      = some f.root.head ∧
    (dart__pmem__open E (dart__pmem__close w pool).2 team name flags mode poolp).world.trace
      = Event.ev_pmemobj_open (_tempname name (E.dart_team_myid team).2) name ::
          ((if flags &&& E.DART_PMEM_FILE_CREATE ≠ 0 then
              [Event.ev_access (_tempname name (E.dart_team_myid team).2)] else []) ++
            Event.ev_team_myid team ::
              Event.ev_pmemobj_close (_tempname name (E.dart_team_myid team).2) ::
                w.trace) := by
  have hcl : (dart__pmem__close w pool).2
      = { (w.log (Event.ev_pmemobj_close (_tempname name (E.dart_team_myid team).2))) with
          opened := Function.update w.opened (_tempname name (E.dart_team_myid team).2)
            false } := by
    unfold dart__pmem__close pmemobj_close
    rw [hpop]
  have hfiles : (dart__pmem__close w pool).2.files = w.files := by
    rw [hcl]; rfl
  have hop := open_of_file E (dart__pmem__close w pool).2 team name flags mode poolp f hflags
    hteam hname hrank (by rw [hfiles]; exact hfile) hlayout
    (by rw [hcl]; simp) hroot
  have hwf : (dart__pmem__open E (dart__pmem__close w pool).2 team name flags mode
      poolp).world.files = w.files := by
    rw [hop]
    dsimp only
    rw [pmemobj_open_files]
    split <;> exact hfiles
  refine ⟨rfl, hfiles, ?_, ?_, hwf, ?_, ?_⟩
  · rw [hop]
  · rw [hop, hpop]
  · unfold World.bucket_list
    rw [hwf, hfile]
    rfl
  · rw [hop]
    dsimp only
    rw [pmemobj_open_trace, hcl]
    split <;> rfl

/-- C8 at work: the pool `pool.1` is closed and opened again without the create flag. -/
theorem close_then_open_keeps_bucket_list_witness :
    (dart__pmem__open E0 (dart__pmem__close (world_with file_rooted true) pool_mapped).2 0
        pool_name 0 0 pool_unset).ret = Outcome.returned dart_ret_t.DART_OK ∧
    (dart__pmem__open E0 (dart__pmem__close (world_with file_rooted true) pool_mapped).2 0
        pool_name 0 0 pool_unset).world.bucket_list pool_path
      = some file_rooted.root.head :=
  have h := close_then_open_keeps_bucket_list E0 (world_with file_rooted true) 0 pool_name 0 0
    pool_mapped pool_unset file_rooted (by decide) (by decide) (by decide) (by decide)
    (by decide) (by decide) (by decide) (by decide)
  ⟨h.2.2.1, h.2.2.2.2.2.1⟩

/-- On valid arguments with the create flag set and no file at the derived path, when the file
system allows the creation and the store has room for the root structure, the root constructor
receives the zero-filled memory of the new root, finds `*list` null and calls `abort()`:
`dart__pmem__open` does not return, whatever the environment; the caller's descriptor is not
written and the pool file created on the way stays without root. -/
theorem open_create_new_pool_aborts (E : Env) (w : World) (team : dart_team_t)
    (name : CString) (flags mode : Nat) (poolp : dart_pmem_pool_t)
    (hflags : flags &&& lnot32 (DART_PMEM_ALL_FLAGS E) = 0) (hteam : team ≠ E.DART_TEAM_NULL)
    (hname : name.length < E.DART_NVM_POOL_NAME)
    (hrank : (E.dart_team_myid team).1 = dart_ret_t.DART_OK)
    (hcreate : flags &&& E.DART_PMEM_FILE_CREATE ≠ 0)
    (habsent : w.files (_tempname name (E.dart_team_myid team).2) = none)
    (hfs : E.can_create (_tempname name (E.dart_team_myid team).2) E.DART_PMEM_MIN_POOL mode
      = true)
    (hsize : E.sizeof_bucket_list ≠ 0)
    (hroom : E.room { layout := name, root_size := 0, root := { name := [], head := [] },
                      objects := [], brk := 0 } E.sizeof_bucket_list = true) :
    (dart__pmem__open E w team name flags mode poolp).ret = Outcome.aborted ∧
    (dart__pmem__open E w team name flags mode poolp).poolp = poolp ∧
    (dart__pmem__open E w team name flags mode poolp).world.files
        (_tempname name (E.dart_team_myid team).2)
      = some { layout := name, root_size := 0, root := { name := [], head := [] },
               objects := [], brk := 0 } := by
  have hopen : dart__pmem__open E w team name flags mode poolp
      = dart__pmem__open_create E
          ((w.log (Event.ev_team_myid team)).log
            (Event.ev_access (_tempname name (E.dart_team_myid team).2)))
          team name mode poolp (_tempname name (E.dart_team_myid team).2) := by
    unfold dart__pmem__open
    rw [if_neg (by simpa using hflags), if_neg (fun h => hteam h.symm), if_neg (by omega)]
    dsimp only
    have hassert : DART_ASSERT E (decide ((E.dart_team_myid team).1 = dart_ret_t.DART_OK))
        = true := by
      simp [DART_ASSERT, hrank]
    rw [if_pos hassert]
    unfold dart__pmem__open_at
    rw [if_pos hcreate]
    dsimp only
    have : (access_fails (w.log (Event.ev_team_myid team))
        (_tempname name (E.dart_team_myid team).2)).1 = true := by
      simp [access_fails, World.log, habsent]
    rw [if_pos this]
    rfl
  rw [hopen]
  simp [dart__pmem__open_create, pmemobj_create, pmemobj_root_construct, root_memory_of,
    _dart_pmem_list_new, World.log, habsent, hfs, hsize, hroom]

/-- C9 (the code departs from the claim): `dart__pmem__open` is called for the name `pool`
with the create flag on a state without files; the file system allows the creation and the
store has room for the root. The pool file `pool.1` is created, and the root constructor, which
reads the zero-filled memory of the new root as a `TOID`, finds it null and calls `abort()`:
the call does not return `DART_OK`, the descriptor is not written, and the file is left
without root, so no name tag and no bucket list are stored. The calls made are the rank
query, `access`, `pmemobj_create` and `pmemobj_root_construct`. -/
theorem open_create_aborts_in_root_constructor :
    (dart__pmem__open E0 world_empty 0 pool_name 1 420 pool_unset).ret = Outcome.aborted ∧
    (dart__pmem__open E0 world_empty 0 pool_name 1 420 pool_unset).ret
      ≠ Outcome.returned dart_ret_t.DART_OK ∧
    (dart__pmem__open E0 world_empty 0 pool_name 1 420 pool_unset).poolp = pool_unset ∧
    (dart__pmem__open E0 world_empty 0 pool_name 1 420 pool_unset).world.files pool_path
      = some { layout := pool_name, root_size := 0, root := { name := [], head := [] },
               objects := [], brk := 0 } ∧
    pmemobj_root_size (dart__pmem__open E0 world_empty 0 pool_name 1 420 pool_unset).world
      pool_path = 0 ∧
    (dart__pmem__open E0 world_empty 0 pool_name 1 420 pool_unset).world.trace
      = [Event.ev_pmemobj_root_construct pool_path 24,
         Event.ev_pmemobj_create pool_path pool_name 4096 420,
         Event.ev_access pool_path,
         Event.ev_team_myid 0] := by
  decide

/-! ## Shared-memory allocator: accounting -/

theorem list_sum_nil (f : dart_list_entry → Nat) : dart_mempool_list_sum f [] = 0 := rfl

theorem list_sum_cons (f : dart_list_entry → Nat) (e : dart_list_entry)
    (l : dart_mempool_list) :
    dart_mempool_list_sum f (e :: l) = f e + dart_mempool_list_sum f l := by
  simp [dart_mempool_list_sum]

theorem size_additive : range_additive (fun e => e.size) := by
  intro p s t
  rfl

theorem covers_additive (x : Nat) : range_additive (dart_list_entry_covers x) := by
  intro p s t
  unfold dart_list_entry_covers
  dsimp only
  by_cases h1 : p ≤ x ∧ x < p + s
  · have h2 : p ≤ x ∧ x < p + (s + t) := ⟨h1.1, by omega⟩
    have h3 : ¬ (p + s ≤ x ∧ x < p + s + t) := by omega
    rw [if_pos h1, if_pos h2, if_neg h3]
  · by_cases h3 : p + s ≤ x ∧ x < p + s + t
    · have h2 : p ≤ x ∧ x < p + (s + t) := ⟨by omega, by omega⟩
      rw [if_neg h1, if_pos h2, if_pos h3]
    · have h2 : ¬ (p ≤ x ∧ x < p + (s + t)) := by omega
      rw [if_neg h1, if_neg h2, if_neg h3]

theorem list_sum_remove (f : dart_list_entry → Nat) :
    ∀ (l : dart_mempool_list) (i : Nat) (e : dart_list_entry), l[i]? = some e →
      dart_mempool_list_sum f (dart_remove_list_entry l i) + f e = dart_mempool_list_sum f l := by
  intro l
  induction l with
  | nil => intro i e h; simp at h
  | cons a l ih =>
    intro i e h
    cases i with
    | zero =>
      simp at h
      subst h
      simp [dart_remove_list_entry, list_sum_cons]
      omega
    | succ i =>
      simp at h
      have := ih i e h
      simp only [dart_remove_list_entry, List.eraseIdx_cons_succ, list_sum_cons] at this ⊢
      omega

theorem list_sum_set (f : dart_list_entry → Nat) :
    ∀ (l : dart_mempool_list) (i : Nat) (e e1 : dart_list_entry), l[i]? = some e →
      dart_mempool_list_sum f (l.set i e1) + f e = dart_mempool_list_sum f l + f e1 := by
  intro l
  induction l with
  | nil => intro i e e1 h; simp at h
  | cons a l ih =>
    intro i e e1 h
    cases i with
    | zero =>
      simp at h
      subst h
      simp [list_sum_cons]
      omega
    | succ i =>
      simp at h
      have := ih i e e1 h
      simp only [List.set_cons_succ, list_sum_cons] at this ⊢
      omega

theorem list_sum_insert_sorted (f : dart_list_entry → Nat) (e : dart_list_entry) :
    ∀ l : dart_mempool_list,
      dart_mempool_list_sum f (dart_insert_sorted l e) = dart_mempool_list_sum f l + f e := by
  intro l
  induction l with
  | nil => simp [dart_insert_sorted, list_sum_cons, list_sum_nil]
  | cons a l ih =>
    unfold dart_insert_sorted
    split
    · simp only [list_sum_cons]; omega
    · simp only [list_sum_cons, ih]; omega

theorem list_sum_melt_from (f : dart_list_entry → Nat) (hf : range_additive f) :
    ∀ (rest : dart_mempool_list) (a : dart_list_entry),
      dart_mempool_list_sum f (dart_list_melt_from a rest)
        = f a + dart_mempool_list_sum f rest := by
  intro rest
  induction rest with
  | nil => intro a; simp [dart_list_melt_from, list_sum_cons, list_sum_nil]
  | cons b rest ih =>
    intro a
    obtain ⟨ap, asz⟩ := a
    obtain ⟨bp, bsz⟩ := b
    unfold dart_list_melt_from
    split
    · rename_i hadj
      dsimp only at hadj ⊢
      rw [ih, list_sum_cons]
      have := hf ap asz bsz
      rw [hadj] at this
      rw [this]
      omega
    · rw [list_sum_cons, ih, list_sum_cons]

/-- The specification's `melt` keeps every additive quantity of the list: the total of the
sizes, and for every address the number of nodes covering it. -/
theorem list_sum_melt (f : dart_list_entry → Nat) (hf : range_additive f)
    (l : dart_mempool_list) :
    dart_mempool_list_sum f (dart_list_melt l) = dart_mempool_list_sum f l := by
  cases l with
  | nil => rfl
  | cons a rest =>
    unfold dart_list_melt
    rw [list_sum_melt_from f hf, list_sum_cons]

theorem first_fit_some (size : Nat) :
    ∀ (l : dart_mempool_list) (i : Nat), dart_mempool_first_fit size l = some i →
      ∃ e, l[i]? = some e ∧ size ≤ e.size ∧
        ∀ j e1, j < i → l[j]? = some e1 → e1.size < size := by
  intro l
  induction l with
  | nil => intro i h; simp [dart_mempool_first_fit] at h
  | cons a l ih =>
    intro i h
    unfold dart_mempool_first_fit at h
    split at h
    · rename_i hfit
      cases h
      exact ⟨a, by simp, hfit, fun j e1 hj _ => absurd hj (Nat.not_lt_zero j)⟩
    · rename_i hno
      cases hrec : dart_mempool_first_fit size l with
      | none => rw [hrec] at h; simp at h
      | some k =>
        rw [hrec] at h
        simp at h
        subst h
        obtain ⟨e, hget, hfit, hbefore⟩ := ih k hrec
        refine ⟨e, by simpa using hget, hfit, ?_⟩
        intro j e1 hj hj1
        cases j with
        | zero =>
          simp at hj1
          subst hj1
          omega
        | succ j =>
          simp at hj1
          exact hbefore j e1 (by omega) hj1

theorem first_fit_none (size : Nat) :
    ∀ l : dart_mempool_list,
      dart_mempool_first_fit size l = none ↔ ∀ e ∈ l, e.size < size := by
  intro l
  induction l with
  | nil => simp [dart_mempool_first_fit]
  | cons a l ih =>
    unfold dart_mempool_first_fit
    split
    · rename_i hfit
      simp
      omega
    · rename_i hno
      simp [ih]
      omega

theorem find_pos_some (pos : Nat) :
    ∀ (l : dart_mempool_list) (i : Nat), dart_mempool_find_pos pos l = some i →
      ∃ e, l[i]? = some e ∧ e.pos = pos := by
  intro l
  induction l with
  | nil => intro i h; simp [dart_mempool_find_pos] at h
  | cons a l ih =>
    intro i h
    unfold dart_mempool_find_pos at h
    split at h
    · rename_i heq
      cases h
      exact ⟨a, by simp, heq⟩
    · cases hrec : dart_mempool_find_pos pos l with
      | none => rw [hrec] at h; simp at h
      | some k =>
        rw [hrec] at h
        simp at h
        subst h
        obtain ⟨e, hget, hpos⟩ := ih k hrec
        exact ⟨e, by simpa using hget, hpos⟩

theorem find_pos_none (pos : Nat) :
    ∀ l : dart_mempool_list,
      dart_mempool_find_pos pos l = none ↔ ∀ e ∈ l, e.pos ≠ pos := by
  intro l
  induction l with
  | nil => simp [dart_mempool_find_pos]
  | cons a l ih =>
    unfold dart_mempool_find_pos
    split
    · rename_i heq
      simp [heq]
    · rename_i hne
      simp [ih, hne]

/-- The specification's `alloc` moves the carved range from the free list to the allocated
list: every additive quantity summed over both lists stays as it is, also when the call
fails. -/
theorem alloc_keeps_sum (f : dart_list_entry → Nat) (hf : range_additive f)
    (pool : dart_opaque_mempool) (size : Nat) :
    dart_mempool_list_sum f (dart_mempool_alloc pool size).2.free
        + dart_mempool_list_sum f (dart_mempool_alloc pool size).2.allocated
      = dart_mempool_list_sum f pool.free + dart_mempool_list_sum f pool.allocated := by
  unfold dart_mempool_alloc
  cases hfit : dart_mempool_first_fit size pool.free with
  | none => rfl
  | some i =>
    obtain ⟨e, hget, hle, -⟩ := first_fit_some size pool.free i hfit
    obtain ⟨ep, esz⟩ := e
    dsimp only at hle
    dsimp only
    rw [hget]
    dsimp only
    by_cases heq : esz = size
    · rw [if_pos heq]
      have h1 := list_sum_remove f pool.free i _ hget
      subst heq
      simp only [dart_push_front, list_sum_cons]
      omega
    · rw [if_neg heq]
      have h1 := list_sum_set f pool.free i _ { pos := ep + size, size := esz - size } hget
      have h2 := hf ep size (esz - size)
      have h3 : size + (esz - size) = esz := by omega
      rw [h3] at h2
      simp only [dart_push_front, list_sum_cons]
      omega

/-- The specification's `free` moves the freed range from the allocated list to the free list
and melts: every additive quantity summed over both lists stays as it is, also when the call
fails. -/
theorem free_keeps_sum (f : dart_list_entry → Nat) (hf : range_additive f)
    (pool : dart_opaque_mempool) (pos : Nat) :
    dart_mempool_list_sum f (dart_mempool_free pool pos).2.free
        + dart_mempool_list_sum f (dart_mempool_free pool pos).2.allocated
      = dart_mempool_list_sum f pool.free + dart_mempool_list_sum f pool.allocated := by
  unfold dart_mempool_free
  cases hfind : dart_mempool_find_pos pos pool.allocated with
  | none => rfl
  | some i =>
    obtain ⟨e, hget, -⟩ := find_pos_some pos pool.allocated i hfind
    dsimp only
    rw [hget]
    dsimp only
    rw [list_sum_melt f hf, list_sum_insert_sorted]
    have h1 := list_sum_remove f pool.allocated i e hget
    omega

theorem step_keeps_sum (f : dart_list_entry → Nat) (hf : range_additive f)
    (pool : dart_opaque_mempool) (call : dart_mempool_call) :
    dart_mempool_list_sum f (dart_mempool_step pool call).free
        + dart_mempool_list_sum f (dart_mempool_step pool call).allocated
      = dart_mempool_list_sum f pool.free + dart_mempool_list_sum f pool.allocated := by
  cases call with
  | alloc size => exact alloc_keeps_sum f hf pool size
  | free pos => exact free_keeps_sum f hf pool pos

theorem alloc_keeps_size (pool : dart_opaque_mempool) (size : Nat) :
    (dart_mempool_alloc pool size).2.size = pool.size := by
  unfold dart_mempool_alloc
  split
  · rfl
  · split <;> rfl

theorem free_keeps_size (pool : dart_opaque_mempool) (pos : Nat) :
    (dart_mempool_free pool pos).2.size = pool.size := by
  unfold dart_mempool_free
  split
  · rfl
  · split <;> rfl

theorem step_keeps_size (pool : dart_opaque_mempool) (call : dart_mempool_call) :
    (dart_mempool_step pool call).size = pool.size := by
  cases call with
  | alloc size => exact alloc_keeps_size pool size
  | free pos => exact free_keeps_size pool pos

theorem run_keeps_sum (f : dart_list_entry → Nat) (hf : range_additive f)
    (calls : List dart_mempool_call) :
    ∀ pool : dart_opaque_mempool,
      dart_mempool_list_sum f (dart_mempool_run pool calls).free
          + dart_mempool_list_sum f (dart_mempool_run pool calls).allocated
        = dart_mempool_list_sum f pool.free + dart_mempool_list_sum f pool.allocated ∧
      (dart_mempool_run pool calls).size = pool.size := by
  induction calls with
  | nil => intro pool; exact ⟨rfl, rfl⟩
  | cons call calls ih =>
    intro pool
    have h := ih (dart_mempool_step pool call)
    unfold dart_mempool_run at h ⊢
    rw [List.foldl_cons]
    rw [h.1, h.2, step_keeps_sum f hf, step_keeps_size]
    exact ⟨rfl, rfl⟩

/-- C11: from the arena whose free list is one entry over the whole segment and whose
allocated list is empty, after every sequence of `alloc` and `free` calls, failing ones
included, the sizes in the free list and in the allocated list add up to the size of the
segment, and the two lists cover the arena without gap and without overlap: every address
below the size lies in exactly one entry, every other address in none. -/
theorem mempool_run_keeps_accounting_and_partition (total : Nat)
    (calls : List dart_mempool_call) :
    (dart_mempool_run (dart_mempool_fresh total) calls).size = total ∧
    dart_mempool_list_sum (fun e => e.size) (dart_mempool_run (dart_mempool_fresh total) calls).free
      + dart_mempool_list_sum (fun e => e.size)
          (dart_mempool_run (dart_mempool_fresh total) calls).allocated
      = total ∧
    ∀ x : Nat,
      dart_mempool_list_sum (dart_list_entry_covers x)
          (dart_mempool_run (dart_mempool_fresh total) calls).free
        + dart_mempool_list_sum (dart_list_entry_covers x)
            (dart_mempool_run (dart_mempool_fresh total) calls).allocated
        = if x < total then 1 else 0 := by
  refine ⟨(run_keeps_sum _ size_additive calls _).2, ?_, ?_⟩
  · rw [(run_keeps_sum _ size_additive calls _).1]
    simp [dart_mempool_fresh, dart_mempool_list_sum]
  · intro x
    rw [(run_keeps_sum _ (covers_additive x) calls _).1]
    simp [dart_mempool_fresh, dart_mempool_list_sum, dart_list_entry_covers]

/-! ## Shared-memory allocator: `free` of an unknown offset, first fit -/

/-- C13: when no entry of the allocated list is at the given offset (a double free or a
foreign pointer), the specification's `free` fails with invalid-argument and leaves the pool,
hence the free list and the allocated list, exactly as it was. -/
theorem free_of_unknown_offset_changes_nothing (pool : dart_opaque_mempool) (pos : Nat)
    (h : ∀ e ∈ pool.allocated, e.pos ≠ pos) :
    (dart_mempool_free pool pos).1 = some dart_mempool_error.invalid_argument ∧
    (dart_mempool_free pool pos).2 = pool ∧
    (dart_mempool_free pool pos).2.free = pool.free ∧
    (dart_mempool_free pool pos).2.allocated = pool.allocated := by
  have hfind := (find_pos_none pos pool.allocated).mpr h
  unfold dart_mempool_free
  rw [hfind]
  exact ⟨rfl, rfl, rfl, rfl⟩

/-- C13 at work: the range at offset 0 is freed a second time, and the range at offset 7 was
never handed out. -/
theorem free_of_unknown_offset_changes_nothing_witness :
    ((dart_mempool_free
        (dart_mempool_run (dart_mempool_fresh 100)
          [dart_mempool_call.alloc 30, dart_mempool_call.alloc 50, dart_mempool_call.free 0])
        0).1 = some dart_mempool_error.invalid_argument ∧
      (dart_mempool_free
        (dart_mempool_run (dart_mempool_fresh 100)
          [dart_mempool_call.alloc 30, dart_mempool_call.alloc 50, dart_mempool_call.free 0])
        0).2
        = dart_mempool_run (dart_mempool_fresh 100)
          [dart_mempool_call.alloc 30, dart_mempool_call.alloc 50, dart_mempool_call.free 0]) ∧
    (dart_mempool_free
        (dart_mempool_run (dart_mempool_fresh 100)
          [dart_mempool_call.alloc 30, dart_mempool_call.alloc 50, dart_mempool_call.free 0])
        7).1 = some dart_mempool_error.invalid_argument :=
  ⟨⟨(free_of_unknown_offset_changes_nothing _ 0 (by decide)).1,
    (free_of_unknown_offset_changes_nothing _ 0 (by decide)).2.1⟩,
   (free_of_unknown_offset_changes_nothing _ 7 (by decide)).1⟩

theorem sorted_tail (a : dart_list_entry) (l : dart_mempool_list)
    (h : dart_mempool_list_sorted (a :: l)) : dart_mempool_list_sorted l := by
  cases l with
  | nil => rfl
  | cons b rest =>
    simp only [dart_mempool_list_sorted, dart_mempool_list_chain, Bool.and_eq_true] at h
    exact h.2

theorem sorted_head_le :
    ∀ (l : dart_mempool_list) (a : dart_list_entry), dart_mempool_list_sorted (a :: l) →
      ∀ e ∈ l, a.pos ≤ e.pos := by
  intro l
  induction l with
  | nil => intro a _ e he; simp at he
  | cons b rest ih =>
    intro a h e he
    have h1 : a.pos ≤ b.pos ∧ dart_mempool_list_sorted (b :: rest) := by
      simp only [dart_mempool_list_sorted, dart_mempool_list_chain, Bool.and_eq_true,
        decide_eq_true_eq] at h
      exact h
    rcases List.mem_cons.mp he with heq | hin
    · rw [heq]; exact h1.1
    · exact le_trans h1.1 (ih b h1.2 e hin)

/-- In a list ascending by offset, the first fit is a fitting entry of lowest offset. -/
theorem first_fit_lowest (size : Nat) :
    ∀ (l : dart_mempool_list), dart_mempool_list_sorted l →
      ∀ (i : Nat) (current : dart_list_entry), dart_mempool_first_fit size l = some i →
        l[i]? = some current → ∀ e ∈ l, size ≤ e.size → current.pos ≤ e.pos := by
  intro l
  induction l with
  | nil => intro _ i current h; simp [dart_mempool_first_fit] at h
  | cons a rest ih =>
    intro hs i current hfit hget e he hle
    unfold dart_mempool_first_fit at hfit
    split at hfit
    · cases hfit
      simp at hget
      subst hget
      rcases List.mem_cons.mp he with heq | hin
      · rw [heq]
      · exact sorted_head_le rest a hs e hin
    · rename_i hno
      cases hrec : dart_mempool_first_fit size rest with
      | none => rw [hrec] at hfit; simp at hfit
      | some k =>
        rw [hrec] at hfit
        simp at hfit
        subst hfit
        simp at hget
        rcases List.mem_cons.mp he with heq | hin
        · rw [heq] at hle; omega
        · exact ih (sorted_tail a rest hs) k current hrec hget e hin hle

/-- C14: on a pool whose free list is ascending by offset, the specification's `alloc` fails
with out-of-memory exactly when no free entry has at least the requested size, and then
changes nothing; otherwise there is a free entry `current` at a position `i` such that no
entry in front of it fits, no fitting entry has a lower offset, the extent handed out starts
at the offset of `current` and has exactly the requested size, the free list is the old one
with `current` removed when the sizes are equal and with `current` shrunk in place otherwise,
and the allocated list is the old one with the carved entry in front. On an arena of size
100: `alloc(30)` gives `[0,30)`, `alloc(50)` gives `[30,80)`, `free` of offset 0 succeeds,
`alloc(20)` gives `[0,20)`, and the free list is then `[20,30)`, `[80,100)`. -/
theorem alloc_takes_lowest_fitting_entry (pool : dart_opaque_mempool) (size : Nat)
    (hsorted : dart_mempool_list_sorted pool.free) :
    ((dart_mempool_alloc pool size).1
        = dart_mempool_alloc_result.error dart_mempool_error.out_of_memory ↔
      ∀ e ∈ pool.free, e.size < size) ∧
    ((∀ e ∈ pool.free, e.size < size) → (dart_mempool_alloc pool size).2 = pool) ∧
    ((∃ e ∈ pool.free, size ≤ e.size) →
      ∃ i current,
        pool.free[i]? = some current ∧ size ≤ current.size ∧
        (∀ j e, j < i → pool.free[j]? = some e → e.size < size) ∧
        (∀ e ∈ pool.free, size ≤ e.size → current.pos ≤ e.pos) ∧
        (dart_mempool_alloc pool size).1
          = dart_mempool_alloc_result.extent { pos := current.pos, size := size } ∧
        (dart_mempool_alloc pool size).2.free
          = (if current.size = size then dart_remove_list_entry pool.free i
             else pool.free.set i { pos := current.pos + size, size := current.size - size }) ∧
        (dart_mempool_alloc pool size).2.allocated
          = { pos := current.pos, size := size } :: pool.allocated) ∧
    ((dart_mempool_alloc (dart_mempool_fresh 100) 30).1
        = dart_mempool_alloc_result.extent { pos := 0, size := 30 } ∧
      (dart_mempool_alloc
          (dart_mempool_run (dart_mempool_fresh 100) [dart_mempool_call.alloc 30]) 50).1
        = dart_mempool_alloc_result.extent { pos := 30, size := 50 } ∧
      (dart_mempool_free
          (dart_mempool_run (dart_mempool_fresh 100)
            [dart_mempool_call.alloc 30, dart_mempool_call.alloc 50]) 0).1 = none ∧
      (dart_mempool_alloc
          (dart_mempool_run (dart_mempool_fresh 100)
            [dart_mempool_call.alloc 30, dart_mempool_call.alloc 50, dart_mempool_call.free 0])
          20).1
        = dart_mempool_alloc_result.extent { pos := 0, size := 20 } ∧
      (dart_mempool_run (dart_mempool_fresh 100) scenario_calls).free
        = [{ pos := 20, size := 10 }, { pos := 80, size := 20 }]) := by
  refine ⟨?_, ?_, ?_, by decide⟩
  · rw [← first_fit_none]
    unfold dart_mempool_alloc
    cases hfit : dart_mempool_first_fit size pool.free with
    | none => simp
    | some i =>
      obtain ⟨e, hget, -, -⟩ := first_fit_some size pool.free i hfit
      dsimp only
      rw [hget]
      simp
  · intro hnone
    have hfit := (first_fit_none size pool.free).mpr hnone
    unfold dart_mempool_alloc
    rw [hfit]
  · rintro ⟨e0, he0, hle0⟩
    cases hfit : dart_mempool_first_fit size pool.free with
    | none =>
      exfalso
      have := (first_fit_none size pool.free).mp hfit e0 he0
      omega
    | some i =>
      obtain ⟨current, hget, hle, hbefore⟩ := first_fit_some size pool.free i hfit
      refine ⟨i, current, hget, hle, hbefore,
        first_fit_lowest size pool.free hsorted i current hfit hget, ?_, ?_, ?_⟩
      all_goals
        unfold dart_mempool_alloc
        rw [hfit]
        dsimp only
        rw [hget]
      rfl

/-- C14 at work: after `alloc(30)`, `alloc(50)` and `free` of offset 0 on an arena of size
100, a request of 20 is served and a request of 31 is not. -/
theorem alloc_takes_lowest_fitting_entry_witness :
    (dart_mempool_alloc
        (dart_mempool_run (dart_mempool_fresh 100)
          [dart_mempool_call.alloc 30, dart_mempool_call.alloc 50, dart_mempool_call.free 0])
        31).1 = dart_mempool_alloc_result.error dart_mempool_error.out_of_memory ∧
    (dart_mempool_alloc
        (dart_mempool_run (dart_mempool_fresh 100)
          [dart_mempool_call.alloc 30, dart_mempool_call.alloc 50, dart_mempool_call.free 0])
        20).2.allocated
      = [{ pos := 0, size := 20 }, { pos := 30, size := 50 }] :=
  ⟨(alloc_takes_lowest_fitting_entry
      (dart_mempool_run (dart_mempool_fresh 100)
        [dart_mempool_call.alloc 30, dart_mempool_call.alloc 50, dart_mempool_call.free 0])
      31 (by decide)).1.mpr (by decide),
   match (alloc_takes_lowest_fitting_entry
      (dart_mempool_run (dart_mempool_fresh 100)
        [dart_mempool_call.alloc 30, dart_mempool_call.alloc 50, dart_mempool_call.free 0])
      20 (by decide)).2.2.1 ⟨{ pos := 0, size := 30 }, by decide, by decide⟩ with
   | ⟨_, current, _, _, _, hlow, _, _, h⟩ => by
     have h0 : current.pos = 0 :=
       Nat.le_zero.mp (hlow { pos := 0, size := 30 } (by decide) (by decide))
     rw [h, h0]
     decide⟩

/-! ## Shared-memory allocator: coalescing -/

theorem chain_cons_iff (r : dart_list_entry → dart_list_entry → Bool) (a : dart_list_entry)
    (l : dart_mempool_list) :
    dart_mempool_list_chain r (a :: l) = true ↔
      (∀ b ∈ l.head?, r a b = true) ∧ dart_mempool_list_chain r l = true := by
  cases l with
  | nil => simp [dart_mempool_list_chain]
  | cons b rest => simp [dart_mempool_list_chain]

theorem chain_mono (r r1 : dart_list_entry → dart_list_entry → Bool)
    (h : ∀ a b, r a b = true → r1 a b = true) :
    ∀ l : dart_mempool_list, dart_mempool_list_chain r l = true →
      dart_mempool_list_chain r1 l = true := by
  intro l
  induction l with
  | nil => intro _; rfl
  | cons a l ih =>
    intro hc
    rw [chain_cons_iff] at hc ⊢
    exact ⟨fun b hb => h a b (hc.1 b hb), ih hc.2⟩

theorem insert_sorted_head (e : dart_list_entry) :
    ∀ l : dart_mempool_list, ∀ b ∈ (dart_insert_sorted l e).head?, b = e ∨ b ∈ l.head? := by
  intro l
  cases l with
  | nil => intro b hb; left; simpa [dart_insert_sorted] using hb.symm
  | cons c rest =>
    intro b hb
    unfold dart_insert_sorted at hb
    split at hb
    · left; simpa using hb.symm
    · right; simpa using hb

/-- Inserting a non-empty range that overlaps no node keeps a sorted, non-overlapping list
sorted and non-overlapping. -/
theorem insert_sorted_disjoint (e : dart_list_entry) (hsize : 0 < e.size) :
    ∀ l : dart_mempool_list, dart_mempool_list_disjoint l →
      (∀ c ∈ l, c.pos + c.size ≤ e.pos ∨ e.pos + e.size ≤ c.pos) →
      dart_mempool_list_disjoint (dart_insert_sorted l e) := by
  intro l
  induction l with
  | nil => intro _ _; rfl
  | cons c rest ih =>
    intro hd hover
    have hc := hover c (List.mem_cons_self c rest)
    have hd1 := (chain_cons_iff _ c rest).mp hd
    unfold dart_insert_sorted
    split
    · rename_i hlt
      rw [dart_mempool_list_disjoint, chain_cons_iff]
      refine ⟨?_, hd⟩
      intro b hb
      simp at hb
      subst hb
      simp
      omega
    · rename_i hge
      rw [dart_mempool_list_disjoint, chain_cons_iff]
      refine ⟨?_, ih hd1.2 (fun x hx => hover x (List.mem_cons_of_mem c hx))⟩
      intro b hb
      rcases insert_sorted_head e rest b hb with heq | hin
      · subst heq
        simp
        omega
      · exact hd1.1 b hin

/-- The scan of `melt` turns a sorted, non-overlapping list into one whose nodes are apart,
and the first node keeps its offset. -/
theorem melt_from_coalesced :
    ∀ (rest : dart_mempool_list) (a : dart_list_entry),
      dart_mempool_list_disjoint (a :: rest) →
      dart_mempool_list_coalesced (dart_list_melt_from a rest) ∧
        ∀ b ∈ (dart_list_melt_from a rest).head?, b.pos = a.pos := by
  intro rest
  induction rest with
  | nil =>
    intro a _
    refine ⟨rfl, ?_⟩
    intro b hb
    simp [dart_list_melt_from] at hb
    rw [hb]
  | cons b rest ih =>
    intro a hd
    have hd1 := (chain_cons_iff _ a (b :: rest)).mp hd
    have hab : a.pos + a.size ≤ b.pos := by
      have := hd1.1 b (by simp)
      simpa using this
    have hd2 := (chain_cons_iff _ b rest).mp hd1.2
    unfold dart_list_melt_from
    split
    · rename_i hadj
      have hm : dart_mempool_list_disjoint
          ({ pos := a.pos, size := a.size + b.size } :: rest) := by
        rw [dart_mempool_list_disjoint, chain_cons_iff]
        refine ⟨?_, hd2.2⟩
        intro c hc
        have := hd2.1 c hc
        simp at this ⊢
        omega
      exact ih _ hm
    · rename_i hnadj
      obtain ⟨hco, hhead⟩ := ih b hd1.2
      refine ⟨?_, ?_⟩
      · rw [dart_mempool_list_coalesced, chain_cons_iff]
        refine ⟨?_, hco⟩
        intro c hc
        have := hhead c hc
        simp
        omega
      · intro c hc
        simp at hc
        rw [hc]

theorem melt_coalesced (l : dart_mempool_list) (hd : dart_mempool_list_disjoint l) :
    dart_mempool_list_coalesced (dart_list_melt l) := by
  cases l with
  | nil => rfl
  | cons a rest => exact (melt_from_coalesced rest a hd).1

theorem covered_iff_sum_pos (x : Nat) :
    ∀ l : dart_mempool_list,
      (∃ e ∈ l, e.pos ≤ x ∧ x < e.pos + e.size) ↔
        0 < dart_mempool_list_sum (dart_list_entry_covers x) l := by
  intro l
  induction l with
  | nil => simp [list_sum_nil]
  | cons a l ih =>
    rw [list_sum_cons, List.exists_mem_cons_iff, ih]
    unfold dart_list_entry_covers
    by_cases h : a.pos ≤ x ∧ x < a.pos + a.size
    · rw [if_pos h]
      constructor
      · intro _; omega
      · intro _; exact Or.inl h
    · rw [if_neg h]
      constructor
      · rintro (h1 | h1)
        · exact absurd h1 h
        · omega
      · intro h1
        right
        omega

/-- C12 (counterexample): on an arena of size 100, after `alloc(50)`, `alloc(10)`,
`alloc(0)` and `free` of offset 50 the free list is the single entry `[50,100)`, sorted and
non-overlapping, and the empty range at offset 60 is allocated; its `free` succeeds and leaves
the free list `[50,100)`, `[60,60)`, in which the first entry does not end before the start of
the second. -/
theorem free_of_empty_range_leaves_uncoalesced_list :
    (dart_mempool_run (dart_mempool_fresh 100) empty_range_calls).free
      = [{ pos := 50, size := 50 }] ∧
    dart_mempool_list_disjoint (dart_mempool_run (dart_mempool_fresh 100) empty_range_calls).free ∧
    (dart_mempool_free (dart_mempool_run (dart_mempool_fresh 100) empty_range_calls) 60).1
      = none ∧
    (dart_mempool_free (dart_mempool_run (dart_mempool_fresh 100) empty_range_calls) 60).2.free
      = [{ pos := 50, size := 50 }, { pos := 60, size := 0 }] ∧
    ¬ dart_mempool_list_coalesced
        (dart_mempool_free (dart_mempool_run (dart_mempool_fresh 100) empty_range_calls)
          60).2.free := by
  decide

/-- When the specification's `free` finds the entry `current` at the given
offset, `current` is not empty and overlaps no entry of the free list, and the free list is
sorted and non-overlapping, then `free` succeeds, the new free list is the melted insertion,
each of its entries ends strictly before the start of the next (so it is strictly ascending by
offset and no two entries are adjacent); and for every list `melt` keeps the total of the
sizes and the set of addresses covered. -/
theorem free_coalesces_of_disjoint (pool : dart_opaque_mempool) (pos i : Nat)
    (current : dart_list_entry)
    (hfind : dart_mempool_find_pos pos pool.allocated = some i)
    (hget : pool.allocated[i]? = some current)
    (hfree : dart_mempool_list_disjoint pool.free)
    (hsize : 0 < current.size)
    (hover : ∀ c ∈ pool.free,
      c.pos + c.size ≤ current.pos ∨ current.pos + current.size ≤ c.pos) :
    (dart_mempool_free pool pos).1 = none ∧
    (dart_mempool_free pool pos).2.free
      = dart_list_melt (dart_insert_sorted pool.free current) ∧
    dart_mempool_list_coalesced (dart_mempool_free pool pos).2.free ∧
    dart_mempool_list_chain (fun a b => decide (a.pos < b.pos))
      (dart_mempool_free pool pos).2.free = true ∧
    (∀ l : dart_mempool_list,
      dart_mempool_list_sum (fun e => e.size) (dart_list_melt l)
        = dart_mempool_list_sum (fun e => e.size) l ∧
      ∀ x, (∃ e ∈ dart_list_melt l, e.pos ≤ x ∧ x < e.pos + e.size) ↔
        (∃ e ∈ l, e.pos ≤ x ∧ x < e.pos + e.size)) := by
  have hres : dart_mempool_free pool pos
      = (none,
          { pool with
            allocated := dart_remove_list_entry pool.allocated i
            free := dart_list_melt (dart_insert_sorted pool.free current) }) := by
    unfold dart_mempool_free
    rw [hfind]
    dsimp only
    rw [hget]
  have hco : dart_mempool_list_coalesced
      (dart_list_melt (dart_insert_sorted pool.free current)) :=
    melt_coalesced _ (insert_sorted_disjoint current hsize pool.free hfree hover)
  rw [hres]
  refine ⟨rfl, rfl, hco, ?_, ?_⟩
  · refine chain_mono _ _ ?_ _ hco
    intro a b hab
    simp at hab ⊢
    omega
  · intro l
    refine ⟨list_sum_melt _ size_additive l, ?_⟩
    intro x
    rw [covered_iff_sum_pos, covered_iff_sum_pos, list_sum_melt _ (covers_additive x)]

theorem disjoint_head_le :
    ∀ (l : dart_mempool_list) (a : dart_list_entry), dart_mempool_list_disjoint (a :: l) →
      ∀ e ∈ l, a.pos + a.size ≤ e.pos := by
  intro l
  induction l with
  | nil => intro a _ e he; simp at he
  | cons b rest ih =>
    intro a h e he
    have h1 := (chain_cons_iff _ a (b :: rest)).mp h
    have hab : a.pos + a.size ≤ b.pos := by
      have := h1.1 b (by simp)
      simpa using this
    rcases List.mem_cons.mp he with heq | hin
    · rw [heq]; exact hab
    · have := ih b h1.2 e hin
      omega

theorem mem_of_mem_eraseIdx (e : dart_list_entry) :
    ∀ (l : dart_mempool_list) (i : Nat), e ∈ l.eraseIdx i → e ∈ l := by
  intro l
  induction l with
  | nil => intro i h; simp at h
  | cons a l ih =>
    intro i h
    cases i with
    | zero => simp at h; exact List.mem_cons_of_mem a h
    | succ i =>
      simp at h
      rcases h with h | h
      · rw [h]; exact List.mem_cons_self a l
      · exact List.mem_cons_of_mem a (ih i h)

theorem mem_of_mem_set (e new : dart_list_entry) :
    ∀ (l : dart_mempool_list) (i : Nat), e ∈ l.set i new → e = new ∨ e ∈ l := by
  intro l
  induction l with
  | nil => intro i h; simp at h
  | cons a l ih =>
    intro i h
    cases i with
    | zero =>
      simp at h
      rcases h with h | h
      · exact Or.inl h
      · exact Or.inr (List.mem_cons_of_mem a h)
    | succ i =>
      simp at h
      rcases h with h | h
      · rw [h]; exact Or.inr (List.mem_cons_self a l)
      · rcases ih i h with h1 | h1
        · exact Or.inl h1
        · exact Or.inr (List.mem_cons_of_mem a h1)

theorem mem_of_getElem (e : dart_list_entry) :
    ∀ (l : dart_mempool_list) (i : Nat), l[i]? = some e → e ∈ l := by
  intro l i h
  exact List.getElem?_mem h

theorem mem_of_mem_head (b : dart_list_entry) (l : dart_mempool_list) (h : b ∈ l.head?) :
    b ∈ l := by
  cases l with
  | nil => simp at h
  | cons a rest =>
    simp at h
    rw [h]
    exact List.mem_cons_self _ rest

/-- Taking a node out of a sorted, non-overlapping list leaves such a list. -/
theorem disjoint_remove :
    ∀ (l : dart_mempool_list) (i : Nat), dart_mempool_list_disjoint l →
      dart_mempool_list_disjoint (dart_remove_list_entry l i) := by
  intro l
  induction l with
  | nil => intro i _; rfl
  | cons a rest ih =>
    intro i hd
    have h1 := (chain_cons_iff _ a rest).mp hd
    cases i with
    | zero => simpa [dart_remove_list_entry] using h1.2
    | succ k =>
      have hrec := ih k h1.2
      simp only [dart_remove_list_entry, List.eraseIdx_cons_succ] at hrec ⊢
      rw [dart_mempool_list_disjoint, chain_cons_iff]
      refine ⟨?_, hrec⟩
      intro b hb
      have hb1 : b ∈ rest := mem_of_mem_eraseIdx b rest k (mem_of_mem_head b _ hb)
      have := disjoint_head_le rest a hd b hb1
      simpa using this

/-- Cutting the low end off a node of a sorted, non-overlapping list leaves such a list. -/
theorem disjoint_shrink (new : dart_list_entry) :
    ∀ (l : dart_mempool_list) (i : Nat) (current : dart_list_entry),
      l[i]? = some current → current.pos ≤ new.pos →
      new.pos + new.size ≤ current.pos + current.size →
      dart_mempool_list_disjoint l → dart_mempool_list_disjoint (l.set i new) := by
  intro l
  induction l with
  | nil => intro i current h; simp at h
  | cons a rest ih =>
    intro i current hget hlo hhi hd
    have h1 := (chain_cons_iff _ a rest).mp hd
    cases i with
    | zero =>
      simp at hget
      subst hget
      simp only [List.set_cons_zero]
      rw [dart_mempool_list_disjoint, chain_cons_iff]
      refine ⟨?_, h1.2⟩
      intro b hb
      have := h1.1 b hb
      simp at this ⊢
      omega
    | succ k =>
      simp at hget
      have hrec := ih k current hget hlo hhi h1.2
      simp only [List.set_cons_succ]
      rw [dart_mempool_list_disjoint, chain_cons_iff]
      refine ⟨?_, hrec⟩
      intro b hb
      rcases mem_of_mem_set b new rest k (mem_of_mem_head b _ hb) with heq | hin
      · have hc := disjoint_head_le rest a hd current (mem_of_getElem current rest k hget)
        subst heq
        simp
        omega
      · have := disjoint_head_le rest a hd b hin
        simpa using this

theorem mem_insert_sorted (e new : dart_list_entry) :
    ∀ l : dart_mempool_list, e ∈ dart_insert_sorted l new → e = new ∨ e ∈ l := by
  intro l
  induction l with
  | nil => intro h; simp [dart_insert_sorted] at h; exact Or.inl h
  | cons a rest ih =>
    intro h
    unfold dart_insert_sorted at h
    split at h
    · rcases List.mem_cons.mp h with h1 | h1
      · exact Or.inl h1
      · exact Or.inr h1
    · rcases List.mem_cons.mp h with h1 | h1
      · rw [h1]; exact Or.inr (List.mem_cons_self a rest)
      · rcases ih h1 with h2 | h2
        · exact Or.inl h2
        · exact Or.inr (List.mem_cons_of_mem a h2)

theorem melt_from_nonempty :
    ∀ (rest : dart_mempool_list) (a : dart_list_entry), 0 < a.size →
      (∀ c ∈ rest, 0 < c.size) → ∀ c ∈ dart_list_melt_from a rest, 0 < c.size := by
  intro rest
  induction rest with
  | nil =>
    intro a ha _ c hc
    simp [dart_list_melt_from] at hc
    rw [hc]; exact ha
  | cons b rest ih =>
    intro a ha hrest c hc
    have hb := hrest b (List.mem_cons_self b rest)
    have hr : ∀ c ∈ rest, 0 < c.size := fun c hc => hrest c (List.mem_cons_of_mem b hc)
    unfold dart_list_melt_from at hc
    split at hc
    · exact ih _ (by simp; omega) hr c hc
    · rcases List.mem_cons.mp hc with h1 | h1
      · rw [h1]; exact ha
      · exact ih b hb hr c h1

theorem melt_nonempty (l : dart_mempool_list) (h : ∀ c ∈ l, 0 < c.size) :
    ∀ c ∈ dart_list_melt l, 0 < c.size := by
  cases l with
  | nil => intro c hc; simp [dart_list_melt] at hc
  | cons a rest =>
    exact melt_from_nonempty rest a (h a (List.mem_cons_self a rest))
      (fun c hc => h c (List.mem_cons_of_mem a hc))

/-- Two non-empty ranges that no address shares lie one behind the other. -/
theorem apart_of_not_shared (c e : dart_list_entry) (hc : 0 < c.size) (he : 0 < e.size)
    (h : ∀ x, ¬ ((c.pos ≤ x ∧ x < c.pos + c.size) ∧ (e.pos ≤ x ∧ x < e.pos + e.size))) :
    c.pos + c.size ≤ e.pos ∨ e.pos + e.size ≤ c.pos := by
  by_contra hcon
  push_neg at hcon
  by_cases hle : c.pos ≤ e.pos
  · exact h e.pos ⟨⟨hle, by omega⟩, ⟨le_refl _, by omega⟩⟩
  · exact h c.pos ⟨⟨le_refl _, by omega⟩, ⟨by omega, by omega⟩⟩

theorem wf_fresh (total : Nat) : dart_mempool_wf (dart_mempool_fresh total) := by
  by_cases h : total = 0
  · left
    subst h
    exact ⟨rfl, rfl⟩
  · right
    refine ⟨rfl, ?_, ?_, ?_⟩
    · intro c hc
      simp [dart_mempool_fresh] at hc
      rw [hc]
      exact Nat.pos_of_ne_zero h
    · intro c hc
      simp [dart_mempool_fresh] at hc
    · intro x
      simp only [dart_mempool_fresh, list_sum_cons, list_sum_nil, dart_list_entry_covers]
      split <;> omega

theorem wf_alloc (pool : dart_opaque_mempool) (size : Nat) (hw : dart_mempool_wf pool)
    (hs : 0 < size) : dart_mempool_wf (dart_mempool_alloc pool size).2 := by
  rcases hw with ⟨hf, ha⟩ | ⟨hd, hpf, hpa, hcov⟩
  · have hfit : dart_mempool_first_fit size pool.free = none := by
      rw [first_fit_none, hf]
      intro e he
      simp at he
      rw [he]
      exact hs
    have hres : (dart_mempool_alloc pool size).2 = pool := by
      unfold dart_mempool_alloc
      rw [hfit]
    rw [hres]
    exact Or.inl ⟨hf, ha⟩
  · cases hfit : dart_mempool_first_fit size pool.free with
    | none =>
      have hres : (dart_mempool_alloc pool size).2 = pool := by
        unfold dart_mempool_alloc
        rw [hfit]
      rw [hres]
      exact Or.inr ⟨hd, hpf, hpa, hcov⟩
    | some i =>
      obtain ⟨current, hget, hle, -⟩ := first_fit_some size pool.free i hfit
      have hres : (dart_mempool_alloc pool size).2
          = { pool with
              free :=
                if current.size = size then dart_remove_list_entry pool.free i
                else pool.free.set i { pos := current.pos + size, size := current.size - size }
              allocated := dart_push_front pool.allocated { pos := current.pos, size := size } } := by
        unfold dart_mempool_alloc
        rw [hfit]
        dsimp only
        rw [hget]
      have hsum := fun x => alloc_keeps_sum _ (covers_additive x) pool size
      rw [hres] at hsum ⊢
      right
      dsimp only at hsum ⊢
      refine ⟨?_, ?_, ?_, ?_⟩
      · split
        · exact disjoint_remove pool.free i hd
        · exact disjoint_shrink _ pool.free i current hget (by simp) (by simp; omega) hd
      · intro c hc
        split at hc
        · exact hpf c (mem_of_mem_eraseIdx c pool.free i hc)
        · rename_i hne
          rcases mem_of_mem_set c _ pool.free i hc with h1 | h1
          · rw [h1]
            simp
            omega
          · exact hpf c h1
      · intro c hc
        rcases List.mem_cons.mp hc with h1 | h1
        · rw [h1]; exact hs
        · exact hpa c h1
      · intro x
        rw [hsum x]
        exact hcov x

theorem wf_free (pool : dart_opaque_mempool) (pos : Nat) (hw : dart_mempool_wf pool) :
    dart_mempool_wf (dart_mempool_free pool pos).2 ∧
      ((dart_mempool_free pool pos).1 = none →
        dart_mempool_list_coalesced (dart_mempool_free pool pos).2.free) := by
  have hunchanged : dart_mempool_find_pos pos pool.allocated = none →
      dart_mempool_free pool pos = (some dart_mempool_error.invalid_argument, pool) := by
    intro h
    unfold dart_mempool_free
    rw [h]
  cases hfind : dart_mempool_find_pos pos pool.allocated with
  | none =>
    rw [hunchanged hfind]
    exact ⟨hw, fun h => Option.noConfusion h⟩
  | some i =>
    obtain ⟨current, hget, -⟩ := find_pos_some pos pool.allocated i hfind
    have hmem : current ∈ pool.allocated := List.getElem?_mem hget
    rcases hw with ⟨-, ha⟩ | ⟨hd, hpf, hpa, hcov⟩
    · rw [ha] at hmem
      simp at hmem
    · have hsize := hpa current hmem
      have hover : ∀ c ∈ pool.free,
          c.pos + c.size ≤ current.pos ∨ current.pos + current.size ≤ c.pos := by
        intro c hc
        apply apart_of_not_shared c current (hpf c hc) hsize
        rintro x ⟨hxc, hxe⟩
        have h1 := (covered_iff_sum_pos x pool.free).mp ⟨c, hc, hxc⟩
        have h2 := (covered_iff_sum_pos x pool.allocated).mp ⟨current, hmem, hxe⟩
        have := hcov x
        omega
      obtain ⟨-, hfree, hco, -, -⟩ :=
        free_coalesces_of_disjoint pool pos i current hfind hget hd hsize hover
      refine ⟨?_, fun _ => hco⟩
      right
      have hall : (dart_mempool_free pool pos).2.allocated
          = dart_remove_list_entry pool.allocated i := by
        unfold dart_mempool_free
        rw [hfind]
        dsimp only
        rw [hget]
      refine ⟨?_, ?_, ?_, ?_⟩
      · refine chain_mono _ _ ?_ _ hco
        intro a b hab
        simp at hab ⊢
        omega
      · rw [hfree]
        apply melt_nonempty
        intro c hc
        rcases mem_insert_sorted c current pool.free hc with h1 | h1
        · rw [h1]; exact hsize
        · exact hpf c h1
      · intro c hc
        rw [hall] at hc
        exact hpa c (mem_of_mem_eraseIdx c pool.allocated i hc)
      · intro x
        rw [free_keeps_sum _ (covers_additive x)]
        exact hcov x

theorem wf_run :
    ∀ (calls : List dart_mempool_call) (pool : dart_opaque_mempool), dart_mempool_wf pool →
      dart_mempool_calls_nonempty calls → dart_mempool_wf (dart_mempool_run pool calls) := by
  intro calls
  induction calls with
  | nil => intro pool hw _; exact hw
  | cons call calls ih =>
    intro pool hw hne
    have hstep : dart_mempool_wf (dart_mempool_step pool call) := by
      cases call with
      | alloc size =>
        have h0 : size ≠ 0 := by
          intro h
          apply hne (dart_mempool_call.alloc size) (List.mem_cons_self _ _)
          rw [h]
        exact wf_alloc pool size hw (Nat.pos_of_ne_zero h0)
      | free pos => exact (wf_free pool pos hw).1
    have := ih (dart_mempool_step pool call) hstep
      (fun c hc => hne c (List.mem_cons_of_mem call hc))
    unfold dart_mempool_run at this ⊢
    rw [List.foldl_cons]
    exact this

/-- C12 (amended): in every run from the fresh arena in which no `alloc` asks for an empty
range, the free list is sorted and non-overlapping, and after every successful `free` each
entry of the free list ends strictly before the start of the next, so the list is strictly
ascending by offset and no two entries are adjacent; for every list `melt` keeps the total of
the sizes and the set of addresses covered. -/
theorem free_in_run_without_empty_ranges_coalesces (total : Nat)
    (calls : List dart_mempool_call) (pos : Nat)
    (hcalls : dart_mempool_calls_nonempty calls)
    (hok : (dart_mempool_free (dart_mempool_run (dart_mempool_fresh total) calls) pos).1
      = none) :
    dart_mempool_list_disjoint (dart_mempool_run (dart_mempool_fresh total) calls).free ∧
    dart_mempool_list_coalesced
      (dart_mempool_free (dart_mempool_run (dart_mempool_fresh total) calls) pos).2.free ∧
    dart_mempool_list_chain (fun a b => decide (a.pos < b.pos))
      (dart_mempool_free (dart_mempool_run (dart_mempool_fresh total) calls) pos).2.free
      = true ∧
    (∀ l : dart_mempool_list,
      dart_mempool_list_sum (fun e => e.size) (dart_list_melt l)
        = dart_mempool_list_sum (fun e => e.size) l ∧
      ∀ x, (∃ e ∈ dart_list_melt l, e.pos ≤ x ∧ x < e.pos + e.size) ↔
        (∃ e ∈ l, e.pos ≤ x ∧ x < e.pos + e.size)) := by
  have hw := wf_run calls (dart_mempool_fresh total) (wf_fresh total) hcalls
  have hco := (wf_free _ pos hw).2 hok
  refine ⟨?_, hco, ?_, ?_⟩
  · rcases hw with ⟨hf, -⟩ | ⟨hd, -⟩
    · rw [hf]; rfl
    · exact hd
  · refine chain_mono _ _ ?_ _ hco
    intro a b hab
    simp at hab ⊢
    omega
  · intro l
    refine ⟨list_sum_melt _ size_additive l, ?_⟩
    intro x
    rw [covered_iff_sum_pos, covered_iff_sum_pos, list_sum_melt _ (covers_additive x)]

/-- C12 (amended) at work: on an arena of size 100, after `alloc(30)`, `alloc(50)` and `free`
of offset 0, the range `[30,80)` is freed between two free entries. -/
theorem free_in_run_without_empty_ranges_coalesces_witness :
    dart_mempool_list_coalesced
      (dart_mempool_free
        (dart_mempool_run (dart_mempool_fresh 100)
          [dart_mempool_call.alloc 30, dart_mempool_call.alloc 50, dart_mempool_call.free 0])
        30).2.free ∧
    (dart_mempool_free
        (dart_mempool_run (dart_mempool_fresh 100)
          [dart_mempool_call.alloc 30, dart_mempool_call.alloc 50, dart_mempool_call.free 0])
        30).2.free = [{ pos := 0, size := 100 }] :=
  ⟨(free_in_run_without_empty_ranges_coalesces 100
      [dart_mempool_call.alloc 30, dart_mempool_call.alloc 50, dart_mempool_call.free 0] 30
      (by decide) (by decide)).2.1,
   by decide⟩

/-! ## `dash::internal::multiply_naive` -/

theorem foldl_add_eq_sum (f : Nat → Int) :
    ∀ (l : List Nat) (c : Int), l.foldl (fun s k => s + f k) c = c + (l.map f).sum := by
  intro l
  induction l with
  | nil => intro c; simp
  | cons a l ih =>
    intro c
    rw [List.foldl_cons, ih, List.map_cons, List.sum_cons]
    ring

/-- The loop over `k` adds the sum of `A[i * m + k] * B[k * m + j]` over `k < m`. -/
theorem multiply_naive_k_eq (A B : Nat → Int) (m i j : Nat) (c_sum : Int) :
    multiply_naive_k A B m i j c_sum
      = c_sum + ((List.range m).map (fun k => A (i * m + k) * B (k * m + j))).sum := by
  unfold multiply_naive_k
  exact foldl_add_eq_sum _ _ _

/-- The loop over `j` for row `i` rewrites the entries `C[j][i]` with `j < p` and no other. -/
theorem multiply_naive_j_eq (A B : Nat → Int) (C : Nat → Nat → Int) (m i : Nat) :
    ∀ p : Nat, multiply_naive_j A B C m p i
      = fun j1 i1 =>
          if j1 < p ∧ i1 = i then multiply_naive_k A B m i j1 (C j1 i) else C j1 i1 := by
  intro p
  induction p with
  | zero =>
    funext j1 i1
    simp [multiply_naive_j]
  | succ p ih =>
    unfold multiply_naive_j at ih ⊢
    rw [List.range_succ, List.foldl_append, ih]
    funext j1 i1
    simp only [List.foldl_cons, List.foldl_nil, matrix_set]
    by_cases h1 : j1 = p ∧ i1 = i
    · obtain ⟨hj, hi⟩ := h1
      subst hj hi
      simp
    · rw [if_neg h1]
      by_cases h2 : j1 < p ∧ i1 = i
      · rw [if_pos h2, if_pos ⟨by omega, h2.2⟩]
      · rw [if_neg h2, if_neg (by omega)]

/-- What `multiply_naive` leaves in `C`: for row `i < n` and column `j < p` the old value plus
the sum over `k < m` of `A[i * m + k] * B[k * m + j]`; every other entry as it was. The index
into `B` advances by `m` per row of `B`, so the sum is the entry of the product when
`m = p`. -/
theorem multiply_naive_eq (A B : Nat → Int) (C : Nat → Nat → Int) (m p : Nat) :
    ∀ n : Nat, multiply_naive A B C m n p
      = fun j1 i1 =>
          if j1 < p ∧ i1 < n then
            C j1 i1 + ((List.range m).map (fun k => A (i1 * m + k) * B (k * m + j1))).sum
          else C j1 i1 := by
  intro n
  induction n with
  | zero =>
    funext j1 i1
    simp [multiply_naive]
  | succ n ih =>
    unfold multiply_naive at ih ⊢
    rw [List.range_succ, List.foldl_append, ih]
    funext j1 i1
    simp only [List.foldl_cons, List.foldl_nil]
    rw [multiply_naive_j_eq]
    dsimp only
    by_cases h1 : j1 < p ∧ i1 = n
    · obtain ⟨hj, hi⟩ := h1
      subst hi
      rw [if_pos ⟨hj, rfl⟩, if_neg (by omega), if_pos ⟨hj, by omega⟩, multiply_naive_k_eq]
    · rw [if_neg h1]
      by_cases h2 : j1 < p ∧ i1 < n
      · rw [if_pos h2, if_pos ⟨h2.1, by omega⟩]
      · rw [if_neg h2, if_neg (by omega)]

/-- For square blocks (`m = p`) `multiply_naive` adds the product to `C`. -/
theorem multiply_naive_square (A B : Nat → Int) (C : Nat → Nat → Int) (m n i j : Nat)
    (hi : i < n) (hj : j < m) :
    multiply_naive A B C m n m j i = C j i + product_entry A B m m i j := by
  rw [multiply_naive_eq]
  dsimp only
  rw [if_pos ⟨hj, hi⟩]
  rfl

/-- C15 (the code departs from the claim): for `m = 2`, `n = 1`, `p = 3`, with `A = [0, 1]`
(`1 x 2`), `B = [0, 0, 1, 0, 0, 0]` (`2 x 3`, row-major) and `C` zero, the entry of the
product at row 0 and column 0 is `0`, while `multiply_naive` leaves `1` there: it reads
`B[k * m + j]`, here `B[2]` for `k = 1`, where `B(1,0)` is `B[k * p + j]`, here `B[3]`. -/
theorem multiply_naive_reads_B_with_stride_m :
    product_entry (flat_array [0, 1]) (flat_array [0, 0, 1, 0, 0, 0]) 2 3 0 0 = 0 ∧
    multiply_naive (flat_array [0, 1]) (flat_array [0, 0, 1, 0, 0, 0]) (fun _ _ => 0) 2 1 3 0 0
      = 1 ∧
    multiply_naive (flat_array [0, 1]) (flat_array [0, 0, 1, 0, 0, 0]) (fun _ _ => 0) 2 1 3 0 0
      ≠ 0 + product_entry (flat_array [0, 1]) (flat_array [0, 0, 1, 0, 0, 0]) 2 3 0 0 := by
  decide

/-! ## Extent checks of `dash::summa` -/

/-- On operands with the documented extents the three assertions compare `n` with `p`, `p`
with `m` and `n` with `m`: they pass exactly for `n = p` and `p = m`. -/
theorem summa_assertions_on_documented_extents (n m p : Nat)
    (pattern_a pattern_b pattern_c : summa_pattern)
    (h : summa_documented_extents n m p pattern_a pattern_b pattern_c) :
    summa_extent_assertions pattern_a pattern_b pattern_c = true ↔ n = p ∧ p = m := by
  obtain ⟨ha0, ha1, hb0, hb1, hc0, hc1⟩ := h
  unfold summa_extent_assertions
  rw [ha0, ha1, hb0, hb1, hc0, hc1]
  simp
  omega

/-- C16 (the code departs from the claim): the operands `A` of `1 x 2`, `B` of `2 x 3` and `C`
of `1 x 3` have the documented extents (`n = 1`, `m = 2`, `p = 3`) and fit a product, yet the
assertions of `dash::summa` fail on them (the first one compares the rows of `A`, 1, with the
columns of `B`, 3); and the operands with extents `(2, 3)`, `(3, 5)` and `(2, 5)` pass all
three assertions although the 2 columns of `A` are not the 5 rows of `B`. -/
theorem summa_assertions_reject_documented_extents :
    summa_documented_extents 1 2 3 (summa_pattern_of 2 1) (summa_pattern_of 3 2)
      (summa_pattern_of 3 1) ∧
    summa_compatible_extents (summa_pattern_of 2 1) (summa_pattern_of 3 2)
      (summa_pattern_of 3 1) ∧
    summa_extent_assertions (summa_pattern_of 2 1) (summa_pattern_of 3 2)
      (summa_pattern_of 3 1) = false ∧
    summa_extent_assertions (summa_pattern_of 2 3) (summa_pattern_of 3 5)
      (summa_pattern_of 2 5) = true ∧
    ¬ summa_compatible_extents (summa_pattern_of 2 3) (summa_pattern_of 3 5)
      (summa_pattern_of 2 5) := by
  decide

/-! ## Unit locality lookup -/

/-- Whenever `dart__base__unit_locality__init` returns, with whatever code, the recorded team
size is the number of units answered by `dart_size`. -/
theorem unit_locality_init_records_size (L : unit_locality_env) (g : unit_locality_data)
    (r : dart_ret_t) (h : (dart__base__unit_locality__init L g).1 = Outcome.returned r) :
    (dart__base__unit_locality__init L g).2._dart__base__unit_locality__team_size_all
      = L.dart_size.2 := by
  unfold dart__base__unit_locality__init at h ⊢
  split
  · rename_i h1
    rw [if_pos h1] at h
    exact Outcome.noConfusion h
  · split
    · rename_i h1 h2
      rw [if_neg h1, if_pos h2] at h
      exact Outcome.noConfusion h
    · dsimp only
      split
      · rfl
      · split <;> rfl

/-- C17: for a unit id in the range of `dart_unit_t` (32-bit signed) and a recorded team size
`N` that leaves room for the negative ids below `2 ^ 64` (as every number of units does),
`dart__base__unit_locality__at` returns `DART_OK` exactly when `0 ≤ unit < N`; then `*loc` is
`map + unit`, the entry of the map at index `unit`; for every other unit id, negative ones
included, it returns `DART_ERR_INVAL` and leaves `*loc` as it was. -/
theorem unit_locality_at_ok_iff_in_range (g : unit_locality_data) (unit : Int)
    (loc : dart_unit_locality_ptr) (hlo : -2 ^ 31 ≤ unit) (hhi : unit < 2 ^ 31)
    (hN : g._dart__base__unit_locality__team_size_all + 2 ^ 31 ≤ 2 ^ 64) :
    ((dart__base__unit_locality__at g unit loc).1 = dart_ret_t.DART_OK ↔
      0 ≤ unit ∧ unit < g._dart__base__unit_locality__team_size_all) ∧
    ((0 ≤ unit ∧ unit < g._dart__base__unit_locality__team_size_all) →
      (dart__base__unit_locality__at g unit loc).2 = dart_unit_locality_ptr.map_plus unit ∧
      g.deref (dart__base__unit_locality__at g unit loc).2
        = g._dart__base__unit_locality__map[unit.toNat]?) ∧
    (¬ (0 ≤ unit ∧ unit < g._dart__base__unit_locality__team_size_all) →
      (dart__base__unit_locality__at g unit loc).1 = dart_ret_t.DART_ERR_INVAL ∧
      (dart__base__unit_locality__at g unit loc).2 = loc) := by
  have hcast : size_t_of_int unit ≥ g._dart__base__unit_locality__team_size_all ↔
      ¬ (0 ≤ unit ∧ unit < g._dart__base__unit_locality__team_size_all) := by
    unfold size_t_of_int
    omega
  unfold dart__base__unit_locality__at
  by_cases hin : 0 ≤ unit ∧ unit < g._dart__base__unit_locality__team_size_all
  · rw [if_neg (fun h => (hcast.mp h) hin)]
    refine ⟨⟨fun _ => hin, fun _ => rfl⟩, fun _ => ⟨rfl, ?_⟩, fun h => absurd hin h⟩
    simp [unit_locality_data.deref, hin.1]
  · rw [if_pos (hcast.mpr hin)]
    refine ⟨⟨fun h => ?_, fun h => absurd h hin⟩, fun h => absurd h hin, fun _ => ⟨rfl, rfl⟩⟩
    exact dart_ret_t.noConfusion h

/-- C17 at work: after initialisation with three units, unit 2 is found at `map + 2` and
unit `-1` is refused. -/
theorem unit_locality_at_ok_iff_in_range_witness :
    (dart__base__unit_locality__at (dart__base__unit_locality__init L0 unit_locality_unset).2 2
        dart_unit_locality_ptr.null).2 = dart_unit_locality_ptr.map_plus 2 ∧
    (dart__base__unit_locality__init L0 unit_locality_unset).2.deref
        (dart__base__unit_locality__at (dart__base__unit_locality__init L0 unit_locality_unset).2
          2 dart_unit_locality_ptr.null).2 = some (locality_of 2) ∧
    (dart__base__unit_locality__at (dart__base__unit_locality__init L0 unit_locality_unset).2
        (-1) dart_unit_locality_ptr.null)
      = (dart_ret_t.DART_ERR_INVAL, dart_unit_locality_ptr.null) :=
  have h2 := (unit_locality_at_ok_iff_in_range
    (dart__base__unit_locality__init L0 unit_locality_unset).2 2 dart_unit_locality_ptr.null
    (by decide) (by decide) (by decide)).2.1 (by decide)
  have hneg := (unit_locality_at_ok_iff_in_range
    (dart__base__unit_locality__init L0 unit_locality_unset).2 (-1) dart_unit_locality_ptr.null
    (by decide) (by decide) (by decide)).2.2 (by decide)
  ⟨h2.1, h2.2.trans (by decide), Prod.ext hneg.1 hneg.2⟩

end Dash
